import Mathlib

/-!
# Resume analyzer and job finder: state container and match scoring

A shallow embedding of `core/static/js/state.js` (the `StateManager` object) and of
`Utils.calculateMatchPercentage` from `core/static/js/utils.js`.

Modelling conventions.

* A JavaScript object is a structure whose fields are `Option`s: `none` is a property that is
  absent (`undefined`), `some v` a property holding `v`.
* A text is a `String`, a sequence of Unicode characters. `String.prototype.toLowerCase` is an
  argument of the scoring functions, so that what is proved of them holds for the lower-casing of
  all of Unicode; the examples use `asciiLower` on ASCII texts.
* JavaScript numbers are rationals (`ℚ`); counters are natural numbers. Where the rounding of
  IEEE-754 doubles changes the integer that `calculateMatchPercentage` returns, in its two random
  fallbacks, every arithmetic operation is rounded to the nearest double (`roundDouble`). The
  weighted sum of the score and the running mean of the `Metrics` entry are kept exact.
* `Math.random()` and `new Date().toISOString()` are read from the environment, so the functions
  that call them take the value read as an argument (`random`, `now`).
* `localStorage` holds, per key, either nothing or the JSON text of a value; the text is kept in
  parsed form, and every `setItem` is taken to succeed.  The sections on a store whose writes can
  fail and on stored text that does not parse lift the two assumptions.
* `listeners` is a plain object, so it inherits the properties of `Object.prototype`: `on`, `off`
  and `dispatchEvent` raise a `TypeError` under an inherited name (`inheritedNames`). The loop over
  the subscribers is `notify`; it is what the setters run, whose six event names are not
  inherited. A dispatch is recorded as a trace of the events fired and of the callbacks called;
  subscribers are observers that do not call back into the container.
-/

namespace ResumeAnalyzer

/-! ## JavaScript primitives -/

/-- Lower-casing of the ASCII letters. `String.prototype.toLowerCase` lower-cases all of Unicode:
it is an argument, `toLowerCase`, of the functions below that call it, and the theorems hold for
every such function. On ASCII text it is `asciiLower`, which the examples use. -/
def asciiLower (s : String) : String := ⟨s.data.map Char.toLower⟩

/-- `String.prototype.includes`: `t` occurs in `s` as a contiguous run of characters. -/
def includes (s t : String) : Bool := decide (t.data <:+: s.data)

/-- Truthiness of a string-valued property: present and not the empty string. -/
def truthyStr : Option String → Bool
  | some s => decide (s ≠ "")
  | none => false

/-- Truthiness of a number-valued property: present and not zero. -/
def truthyNum : Option Int → Bool
  | some n => decide (n ≠ 0)
  | none => false

namespace Math

/-- `Math.round`: the nearest integer, a half rounded towards positive infinity. -/
def round (x : ℚ) : Int := ⌊x + 1 / 2⌋

/-- `Math.floor`. -/
def floor (x : ℚ) : Int := ⌊x⌋

end Math

/-- Rounding to the nearest integer, a tie going to the even one. -/
def roundHalfEven (y : ℚ) : Int :=
  if y - ⌊y⌋ < 1 / 2 then ⌊y⌋
  else if 1 / 2 < y - ⌊y⌋ then ⌊y⌋ + 1
  else if ⌊y⌋ % 2 = 0 then ⌊y⌋ else ⌊y⌋ + 1

/-- The exponent of the spacing of the doubles around `x`: 52 below the binary exponent of `x`,
which counts as at least -1022 (below it the doubles are subnormal and equally spaced). -/
def ulpExponent (x : ℚ) : Int := max (Int.log 2 |x|) (-1022) - 52

/-- The double nearest to `x` (IEEE 754 binary64, round to nearest, ties to even), as a rational:
the value a JavaScript arithmetic operation stores when its exact result is `x`. Overflow to
`Infinity` is not represented; the values rounded here are below 100. -/
def roundDouble (x : ℚ) : ℚ :=
  (roundHalfEven (x / (2 : ℚ) ^ ulpExponent x) : ℚ) * (2 : ℚ) ^ ulpExponent x

/-! ## Data model -/

/-- A job record, as produced by the job search and stored under `rba_jobs`. -/
structure Job where
  id : Option String
  title : Option String
  company : Option String
  location : Option String
  remote : Option Bool
  skills : Option (List String)
  experienceLevel : Option String
  deriving DecidableEq, Repr

/-- The `atsBreakdown` object of a hydration payload. -/
structure Breakdown where
  missing_keywords : Option (List String)
  professional_summary : Option String
  deriving DecidableEq, Repr

/-- The value stored under `rba_resume`. -/
structure Resume where
  name : Option String
  fileName : Option String
  uploadedAt : Option String
  atsScore : Option Int
  atsBreakdown : Option Breakdown
  skills : Option (List String)
  missingKeywords : Option (List String)
  professionalSummary : Option String
  deriving DecidableEq, Repr

/-- The value stored under `rba_preferences`. -/
structure Preferences where
  jobTitle : Option String
  location : Option String
  remote : Option Bool
  salaryRange : Option String
  experienceLevel : Option String
  industries : Option (List String)
  skills : Option (List String)
  deriving DecidableEq, Repr

/-! ## `Utils.calculateMatchPercentage`

The argument `toLowerCase` is `String.prototype.toLowerCase`. The sum `score` of the weighted path
is kept exact; the two random fallbacks are computed as the code computes them, in doubles, where
the rounding changes the integer returned. -/

/-- The local `userSkills`:
`(resume && resume.skills && resume.skills.length > 0) ? resume.skills
   : (preferences && preferences.skills) || []`. -/
def userSkills (resume : Option Resume) (preferences : Option Preferences) : List String :=
  let fallback : List String :=
    match preferences with
    | some p => p.skills.getD []
    | none => []
  match resume with
  | some r =>
    match r.skills with
    | some sk => if sk.length > 0 then sk else fallback
    | none => fallback
  | none => fallback

/-- The predicate of `job.skills.filter`: some user skill contains, or is contained in, the job
skill, both lower-cased. -/
def skillMatches (toLowerCase : String → String) (userSkills : List String) (jobSkill : String) :
    Bool :=
  userSkills.any fun userSkill =>
    includes (toLowerCase jobSkill) (toLowerCase userSkill) ||
      includes (toLowerCase userSkill) (toLowerCase jobSkill)

/-- The local `matchingSkills`. -/
def matchingSkills (toLowerCase : String → String) (userSkills jobSkills : List String) : Nat :=
  (jobSkills.filter (skillMatches toLowerCase userSkills)).length

/-- The two substring tests of the title and location blocks. -/
def eitherIncludes (toLowerCase : String → String) (a b : String) : Bool :=
  includes (toLowerCase a) (toLowerCase b) || includes (toLowerCase b) (toLowerCase a)

/-- The locals `score` and `factors`. -/
structure Tally where
  score : ℚ
  factors : Nat
  deriving DecidableEq, Repr

/-- Skills match (40 points). -/
def skillsFactor (toLowerCase : String → String) (job : Job) (us : List String) (t : Tally) :
    Tally :=
  match job.skills with
  | some js =>
    if us.length > 0 ∧ js.length > 0 then
      let skillMatchRatio : ℚ := (matchingSkills toLowerCase us js : ℚ) / (js.length : ℚ)
      ⟨t.score + skillMatchRatio * 40, t.factors + 1⟩
    else t
  | none => t

/-- Job title match (30 points). -/
def titleFactor (toLowerCase : String → String) (job : Job) (preferences : Option Preferences)
    (t : Tally) : Tally :=
  match preferences with
  | some p =>
    if truthyStr p.jobTitle ∧ truthyStr job.title then
      let titleMatch := eitherIncludes toLowerCase (job.title.getD "") (p.jobTitle.getD "")
      ⟨t.score + (if titleMatch then 30 else 0), t.factors + 1⟩
    else t
  | none => t

/-- Location match (15 points). -/
def locationFactor (toLowerCase : String → String) (job : Job) (preferences : Option Preferences)
    (t : Tally) : Tally :=
  match preferences with
  | some p =>
    if truthyStr p.location ∧ truthyStr job.location then
      let locationMatch := eitherIncludes toLowerCase (job.location.getD "") (p.location.getD "")
      ⟨t.score + (if locationMatch then 15 else 0), t.factors + 1⟩
    else t
  | none => t

/-- Remote match (10 points). -/
def remoteFactor (job : Job) (preferences : Option Preferences) (t : Tally) : Tally :=
  match preferences with
  | some p =>
    match p.remote, job.remote with
    | some pr, some jr => ⟨if pr = jr then t.score + 10 else t.score, t.factors + 1⟩
    | _, _ => t
  | none => t

/-- Experience level match (5 points). -/
def experienceFactor (job : Job) (preferences : Option Preferences) (t : Tally) : Tally :=
  match preferences with
  | some p =>
    if truthyStr p.experienceLevel ∧ truthyStr job.experienceLevel then
      ⟨if p.experienceLevel = job.experienceLevel then t.score + 5 else t.score, t.factors + 1⟩
    else t
  | none => t

/-- The values of `score` and `factors` when control reaches the fallback tests. -/
def tally (toLowerCase : String → String) (job : Job) (resume : Option Resume)
    (preferences : Option Preferences) : Tally :=
  experienceFactor job preferences
    (remoteFactor job preferences
      (locationFactor toLowerCase job preferences
        (titleFactor toLowerCase job preferences
          (skillsFactor toLowerCase job (userSkills resume preferences) ⟨0, 0⟩))))

/-- `Utils.calculateMatchPercentage(job, resume, preferences)`, with `random` the value that
`Math.random()` returns if it is called. In the fallbacks the product and the sum are each
rounded to a double before `Math.floor`. -/
def calculateMatchPercentage (toLowerCase : String → String) (random : ℚ) (job : Job)
    (resume : Option Resume) (preferences : Option Preferences) : Int :=
  let t := tally toLowerCase job resume preferences
  if t.factors = 0 ∧ (userSkills resume preferences).length > 0 then
    Math.floor (roundDouble (roundDouble (random * 20) + 60))
  else if t.factors = 0 then
    Math.floor (roundDouble (roundDouble (random * 30) + 50))
  else
    min 100 (max 0 (Math.round t.score))

/-! ## `StateManager`: stored values -/

/-- The value stored under `rba_user`. -/
structure Profile where
  name : Option String
  email : Option String
  createdAt : Option String
  deriving DecidableEq, Repr

/-- The value stored under `rba_analysis`. -/
structure Analysis where
  atsScore : Option Int
  breakdown : Option Breakdown
  skills : Option (List String)
  analyzedAt : Option String
  deriving DecidableEq, Repr

/-- The value stored under `rba_metrics`; `lastAnalysisDate` is `null` (`none`) or a time stamp. -/
structure Metrics where
  lastAnalysisDate : Option String
  totalAnalyses : Nat
  averageATSScore : ℚ
  jobsFound : Nat
  resumeUploaded : Bool
  deriving DecidableEq, Repr

/-- The argument `data` of `hydrate`, when it is an object. -/
structure Payload where
  resumeName : Option String
  uploadedAt : Option String
  atsScore : Option Int
  atsBreakdown : Option Breakdown
  skills : Option (List String)
  deriving DecidableEq, Repr

/-- One call `dispatchEvent(event, data)`: the event name with the value passed. The container
dispatches the first six; `other` is a call by a client under a name of its choice. -/
inductive Event where
  | userUpdated (user : Profile)
  | resumeUpdated (resume : Resume)
  | preferencesUpdated (preferences : Preferences)
  | analysisUpdated (analysis : Analysis)
  | jobsUpdated (jobs : List Job)
  | metricsUpdated (metrics : Metrics)
  | other (name : String) (data : String)
  deriving DecidableEq, Repr

/-- The name under which an event is dispatched. -/
def Event.name : Event → String
  | Event.userUpdated _ => "userUpdated"
  | Event.resumeUpdated _ => "resumeUpdated"
  | Event.preferencesUpdated _ => "preferencesUpdated"
  | Event.analysisUpdated _ => "analysisUpdated"
  | Event.jobsUpdated _ => "jobsUpdated"
  | Event.metricsUpdated _ => "metricsUpdated"
  | Event.other name _ => name

/-- A callback passed to `on`: its identity (what `cb !== callback` compares) and whether it
throws when called with given data. What a callback does outside the container is not part of
the state. -/
structure Handler where
  id : Nat
  raises : Event → Bool

/-- The six `localStorage` entries of `KEYS` (`none`: the key is unset); the object `listeners`,
as the subscriptions `(event, callback)` in the order they were made, so that `listeners[event]`
is the callbacks paired with `event`, in order; and three traces: the events dispatched, the
callbacks called (identity and data), and the event names passed to `console.error`. -/
structure State where
  user : Option Profile
  resume : Option Resume
  preferences : Option Preferences
  analysis : Option Analysis
  jobs : Option (List Job)
  metrics : Option Metrics
  dispatched : List Event
  listeners : List (String × Handler)
  calls : List (Nat × Event)
  logged : List String

/-- A store in which no key is set, with no subscriber, and nothing has been dispatched. -/
def State.empty : State :=
  { user := none, resume := none, preferences := none, analysis := none, jobs := none,
    metrics := none, dispatched := [], listeners := [], calls := [], logged := [] }

/-- The errors a container method can raise: a `TypeError`, the `SyntaxError` of `JSON.parse`,
the `QuotaExceededError` of `localStorage.setItem`, and whatever a callback throws. -/
inductive JsError where
  | typeError
  | syntaxError
  | quotaExceeded
  | thrown
  deriving DecidableEq, Repr

/-- The result of a method that can raise: the state it leaves, and the error if it raised. -/
structure Outcome where
  state : State
  error : Option JsError

/-- Normal completion. -/
def Outcome.ok (s : State) : Outcome := ⟨s, none⟩

/-- An uncaught `TypeError`; the writes made before it stay. -/
def Outcome.raise (s : State) : Outcome := ⟨s, some JsError.typeError⟩

/-- Sequencing of statements: the rest runs only if the first part completed. -/
def Outcome.andThen (o : Outcome) (f : State → Outcome) : Outcome :=
  match o.error with
  | none => f o.state
  | some _ => o

/-! ## `StateManager`: methods -/

/-- The property names that the plain object `listeners` inherits from `Object.prototype`. Under
such a name `listeners[event]` is the inherited value (a function, or the prototype itself for
`__proto__`), which is truthy and has no `push`, `filter` or `forEach`. -/
def inheritedNames : List String :=
  ["constructor", "toString", "toLocaleString", "valueOf", "hasOwnProperty", "isPrototypeOf",
    "propertyIsEnumerable", "__proto__", "__defineGetter__", "__defineSetter__",
    "__lookupGetter__", "__lookupSetter__"]

/-- The array `listeners[event]`, for an event name that is not inherited (empty when no array
has been created). -/
def listenersFor (event : String) (s : State) : List Handler :=
  (s.listeners.filter fun l => decide (l.1 = event)).map fun l => l.2

/-- `on(event, callback)`. Under an inherited name `!this.listeners[event]` is false, no array is
created, and `this.listeners[event].push` is not a function. -/
def onEvent (event : String) (callback : Handler) (s : State) : Outcome :=
  if event ∈ inheritedNames then Outcome.raise s
  else Outcome.ok { s with listeners := s.listeners ++ [(event, callback)] }

/-- `off(event, callback)`: `listeners[event]` keeps the callbacks that are not `callback`. Under
an inherited name `this.listeners[event].filter` is not a function. -/
def off (event : String) (callback : Handler) (s : State) : Outcome :=
  if event ∈ inheritedNames then Outcome.raise s
  else
    Outcome.ok
      { s with
        listeners :=
          s.listeners.filter fun l => !(decide (l.1 = event) && decide (l.2.id = callback.id)) }

/-- The call `callback(data)`. -/
def callListener (data : Event) (callback : Handler) (s : State) : Outcome :=
  let s := { s with calls := s.calls ++ [(callback.id, data)] }
  if callback.raises data then ⟨s, some JsError.thrown⟩ else ⟨s, none⟩

/-- The body of `forEach` in `dispatchEvent`: the call inside `try`, and `console.error` in
`catch`. -/
def tryListener (data : Event) (s : State) (callback : Handler) : State :=
  match (callListener data callback s).error with
  | none => (callListener data callback s).state
  | some _ =>
    { (callListener data callback s).state with
      logged := (callListener data callback s).state.logged ++ [data.name] }

/-- The `forEach` of `dispatchEvent(event, data)`: every callback of `listeners[event]` is called
in turn. It is what `dispatchEvent` does under a name that is not inherited, and so what the
calls `this.dispatchEvent(...)` of the setters do: the six names they pass are not inherited. -/
def notify (e : Event) (s : State) : State :=
  (listenersFor e.name s).foldl (tryListener e) { s with dispatched := s.dispatched ++ [e] }

/-- `dispatchEvent(event, data)`. Under an inherited name `this.listeners[event]` is truthy and
`this.listeners[event].forEach` is not a function: a `TypeError`, outside the `try`. -/
def dispatchEvent (e : Event) (s : State) : Outcome :=
  if e.name ∈ inheritedNames then Outcome.raise s else Outcome.ok (notify e s)

/-- `getUser()`. -/
def getUser (s : State) : Option Profile := s.user

/-- `setUser(user)`. -/
def setUser (user : Profile) (s : State) : State :=
  notify (Event.userUpdated user) { s with user := some user }

/-- The object `{ ...user, ...updates }`: a key of `updates` wins, `user` may be `null`. -/
def mergeProfile (user : Option Profile) (updates : Profile) : Profile :=
  match user with
  | some u =>
    { name := updates.name.orElse fun _ => u.name
      email := updates.email.orElse fun _ => u.email
      createdAt := updates.createdAt.orElse fun _ => u.createdAt }
  | none => updates

/-- `updateUser(updates)`; the value returned is `mergeProfile (getUser s) updates`. -/
def updateUser (updates : Profile) (s : State) : State :=
  setUser (mergeProfile (getUser s) updates) s

/-- The value `updateUser(updates)` returns: its local `updated`. -/
def updateUserReturn (updates : Profile) (s : State) : Profile :=
  mergeProfile (getUser s) updates

/-- `getResume()`. -/
def getResume (s : State) : Option Resume := s.resume

/-- `getMetrics()`. -/
def getMetrics (s : State) : Option Metrics := s.metrics

/-- `setMetrics(metrics)`. -/
def setMetrics (metrics : Metrics) (s : State) : State :=
  notify (Event.metricsUpdated metrics) { s with metrics := some metrics }

/-- `setResume(resume)`; assigning to a property of `getMetrics()` raises when it is `null`. -/
def setResume (resume : Resume) (s : State) : Outcome :=
  let s := notify (Event.resumeUpdated resume) { s with resume := some resume }
  match getMetrics s with
  | none => Outcome.raise s
  | some metrics => Outcome.ok (setMetrics { metrics with resumeUploaded := true } s)

/-- `getPreferences()`. -/
def getPreferences (s : State) : Option Preferences := s.preferences

/-- `setPreferences(preferences)`. -/
def setPreferences (preferences : Preferences) (s : State) : State :=
  notify (Event.preferencesUpdated preferences) { s with preferences := some preferences }

/-- The object `{ ...prefs, ...updates }`. -/
def mergePreferences (prefs : Option Preferences) (updates : Preferences) : Preferences :=
  match prefs with
  | some p =>
    { jobTitle := updates.jobTitle.orElse fun _ => p.jobTitle
      location := updates.location.orElse fun _ => p.location
      remote := updates.remote.orElse fun _ => p.remote
      salaryRange := updates.salaryRange.orElse fun _ => p.salaryRange
      experienceLevel := updates.experienceLevel.orElse fun _ => p.experienceLevel
      industries := updates.industries.orElse fun _ => p.industries
      skills := updates.skills.orElse fun _ => p.skills }
  | none => updates

/-- `updatePreferences(updates)`; the value returned is
`mergePreferences (getPreferences s) updates`. -/
def updatePreferences (updates : Preferences) (s : State) : State :=
  setPreferences (mergePreferences (getPreferences s) updates) s

/-- The value `updatePreferences(updates)` returns: its local `updated`. -/
def updatePreferencesReturn (updates : Preferences) (s : State) : Preferences :=
  mergePreferences (getPreferences s) updates

/-- `getAnalysis()`. -/
def getAnalysis (s : State) : Option Analysis := s.analysis

/-- The assignments of `setAnalysis` to its local `metrics`. -/
def analysisMetrics (now : String) (analysis : Analysis) (metrics : Metrics) : Metrics :=
  let metrics := { metrics with lastAnalysisDate := some now }
  let metrics := { metrics with totalAnalyses := metrics.totalAnalyses + 1 }
  if truthyNum analysis.atsScore then
    let currentAvg := metrics.averageATSScore
    let total : ℚ := metrics.totalAnalyses
    { metrics with
      averageATSScore := ((currentAvg * (total - 1)) + ((analysis.atsScore.getD 0 : Int) : ℚ)) / total }
  else metrics

/-- `setAnalysis(analysis)`, with `now` the time stamp read from the clock. -/
def setAnalysis (now : String) (analysis : Analysis) (s : State) : Outcome :=
  let s := notify (Event.analysisUpdated analysis) { s with analysis := some analysis }
  match getMetrics s with
  | none => Outcome.raise s
  | some metrics => Outcome.ok (setMetrics (analysisMetrics now analysis metrics) s)

/-- `getJobs()`: an unset key reads as the empty array. -/
def getJobs (s : State) : List Job := s.jobs.getD []

/-- `setJobs(jobs)`. -/
def setJobs (jobs : List Job) (s : State) : Outcome :=
  let s := notify (Event.jobsUpdated jobs) { s with jobs := some jobs }
  match getMetrics s with
  | none => Outcome.raise s
  | some metrics => Outcome.ok (setMetrics { metrics with jobsFound := jobs.length } s)

/-- The predicate of `jobs.some` in `addJob`:
`(job.id && j.id === job.id) || (j.title === job.title && j.company === job.company)`. -/
def sameJob (job j : Job) : Bool :=
  (truthyStr job.id && decide (j.id = job.id)) ||
  (decide (j.title = job.title) && decide (j.company = job.company))

/-- `addJob(job)`. -/
def addJob (job : Job) (s : State) : Outcome :=
  let jobs := getJobs s
  let found := jobs.any (sameJob job)
  if !found then setJobs (jobs ++ [job]) s else Outcome.ok s

/-- `init()`, with `now` the time stamp read from the clock. -/
def init (now : String) (s : State) : State :=
  let s := if (getUser s).isNone then
      setUser { name := some "", email := some "", createdAt := some now } s
    else s
  let s := if (getPreferences s).isNone then
      setPreferences
        { jobTitle := some "", location := some "", remote := some false, salaryRange := some "",
          experienceLevel := some "", industries := some [], skills := some [] } s
    else s
  if (getMetrics s).isNone then
    setMetrics
      { lastAnalysisDate := none, totalAnalyses := 0, averageATSScore := 0, jobsFound := 0,
        resumeUploaded := false } s
  else s

/-- `[...new Set(xs)]`: the elements of `xs`, each kept at its first occurrence. -/
def newSet (xs : List String) : List String :=
  xs.foldl (fun acc x => if x ∈ acc then acc else acc ++ [x]) []

/-- The local `resumeData` of `hydrate`. -/
def resumeData (data : Payload) : Resume :=
  { name := data.resumeName
    fileName := data.resumeName
    uploadedAt := data.uploadedAt
    atsScore := data.atsScore
    atsBreakdown := data.atsBreakdown
    skills := data.skills
    missingKeywords := some ((data.atsBreakdown.bind fun b => b.missing_keywords).getD [])
    professionalSummary :=
      some (if truthyStr (data.atsBreakdown.bind fun b => b.professional_summary) then
        (data.atsBreakdown.bind fun b => b.professional_summary).getD "" else "") }

/-- The local `analysisData` of `hydrate`. -/
def analysisData (data : Payload) : Analysis :=
  { atsScore := data.atsScore
    breakdown := data.atsBreakdown
    skills := data.skills
    analyzedAt := data.uploadedAt }

/-- The skill merge that ends `hydrate`: reading `prefs.skills` raises when `prefs` is `null`,
and spreading `data.skills` raises when it is `undefined`. -/
def hydrateSkills (data : Payload) (s : State) : Outcome :=
  match getPreferences s with
  | none => Outcome.raise s
  | some prefs =>
    match data.skills with
    | none => Outcome.raise s
    | some skills =>
      let newSkills := newSet (prefs.skills.getD [] ++ skills)
      Outcome.ok (updatePreferences
        { jobTitle := none, location := none, remote := none, salaryRange := none,
          experienceLevel := none, industries := none, skills := some newSkills } s)

/-- `hydrate(data)`; `none` is a falsy argument. -/
def hydrate (now : String) (data : Option Payload) (s : State) : Outcome :=
  match data with
  | none => Outcome.ok s
  | some data =>
    let first :=
      if truthyStr data.resumeName ∨ data.atsScore.isSome then setResume (resumeData data) s
      else Outcome.ok s
    first.andThen fun s =>
      if data.atsScore.isSome then
        (setAnalysis now (analysisData data) s).andThen (hydrateSkills data)
      else Outcome.ok s

/-- `clearAll()`: every key of `KEYS` is removed, and `listeners` becomes the empty object. -/
def clearAll (s : State) : State :=
  { s with user := none, resume := none, preferences := none, analysis := none, jobs := none,
           metrics := none, listeners := [] }

/-! ## Sequences of calls -/

/-- A call of a container method by a client. `setMetrics` is the path the container uses for its
derived collection and is not a client call. -/
inductive Op where
  | init (now : String)
  | hydrate (now : String) (data : Option Payload)
  | setUser (user : Profile)
  | updateUser (updates : Profile)
  | setResume (resume : Resume)
  | setPreferences (preferences : Preferences)
  | updatePreferences (updates : Preferences)
  | setAnalysis (now : String) (analysis : Analysis)
  | setJobs (jobs : List Job)
  | addJob (job : Job)
  | clearAll
  deriving DecidableEq, Repr

/-- The effect of one call. -/
def Op.apply : Op → State → Outcome
  | Op.init now, s => Outcome.ok (ResumeAnalyzer.init now s)
  | Op.hydrate now data, s => ResumeAnalyzer.hydrate now data s
  | Op.setUser user, s => Outcome.ok (ResumeAnalyzer.setUser user s)
  | Op.updateUser updates, s => Outcome.ok (ResumeAnalyzer.updateUser updates s)
  | Op.setResume resume, s => ResumeAnalyzer.setResume resume s
  | Op.setPreferences preferences, s => Outcome.ok (ResumeAnalyzer.setPreferences preferences s)
  | Op.updatePreferences updates, s => Outcome.ok (ResumeAnalyzer.updatePreferences updates s)
  | Op.setAnalysis now analysis, s => ResumeAnalyzer.setAnalysis now analysis s
  | Op.setJobs jobs, s => ResumeAnalyzer.setJobs jobs s
  | Op.addJob job, s => ResumeAnalyzer.addJob job s
  | Op.clearAll, s => Outcome.ok (ResumeAnalyzer.clearAll s)

/-- A sequence of calls, each made on the state the previous one left; a call that raises ends
there, and the next call still runs. -/
def run (ops : List Op) (s : State) : State :=
  ops.foldl (fun s op => (op.apply s).state) s

/-! ## The score in the words of the specification -/

/-- Case-insensitive substring match in either direction: one of the two texts, lower-cased,
occurs in the other as a contiguous run of characters. -/
abbrev substringMatch (lower : String → String) (a b : String) : Prop :=
  (lower a).data <:+: (lower b).data ∨ (lower b).data <:+: (lower a).data

/-- A text input is present: it is defined and is not the empty text. -/
abbrev present (x : Option String) : Prop := x.isSome = true ∧ x ≠ some ""

/-- The skill source: `resume.skills` if it is non-empty, else `preferences.skills`. -/
def skillSource (resume : Option Resume) (preferences : Option Preferences) : List String :=
  if (resume.bind fun r => r.skills).getD [] ≠ [] then (resume.bind fun r => r.skills).getD []
  else (preferences.bind fun p => p.skills).getD []

/-- The number of record skills that contain, or are contained in, some user skill. -/
def matchingCount (lower : String → String) (source recordSkills : List String) : Nat :=
  recordSkills.countP fun skill => decide (∃ user ∈ source, substringMatch lower skill user)

/-- The skills factor is applicable: the user has skills and the record has skills. -/
abbrev skillsApply (job : Job) (resume : Option Resume) (preferences : Option Preferences) :
    Prop :=
  skillSource resume preferences ≠ [] ∧ job.skills.getD [] ≠ []

/-- The title factor is applicable: `preferences.jobTitle` and `record.title` are present. -/
abbrev titleApplies (job : Job) (preferences : Option Preferences) : Prop :=
  present (preferences.bind fun p => p.jobTitle) ∧ present job.title

/-- The location factor is applicable: both locations are present. -/
abbrev locationApplies (job : Job) (preferences : Option Preferences) : Prop :=
  present (preferences.bind fun p => p.location) ∧ present job.location

/-- The remote factor is applicable: both sides define the flag. -/
abbrev remoteApplies (job : Job) (preferences : Option Preferences) : Prop :=
  (preferences.bind fun p => p.remote).isSome = true ∧ job.remote.isSome = true

/-- The experience factor is applicable: both levels are present. -/
abbrev experienceApplies (job : Job) (preferences : Option Preferences) : Prop :=
  present (preferences.bind fun p => p.experienceLevel) ∧ present job.experienceLevel

/-- Skills overlap (weight 40): `40 × (matching count / record.skills length)`. -/
def skillsTerm (lower : String → String) (job : Job) (resume : Option Resume)
    (preferences : Option Preferences) : ℚ :=
  if skillsApply job resume preferences then
    40 * ((matchingCount lower (skillSource resume preferences) (job.skills.getD []) : ℚ)
      / ((job.skills.getD []).length : ℚ))
  else 0

/-- Title overlap (weight 30): the full weight if the two titles substring-match. -/
def titleTerm (lower : String → String) (job : Job) (preferences : Option Preferences) : ℚ :=
  if titleApplies job preferences ∧
      substringMatch lower ((preferences.bind fun p => p.jobTitle).getD "")
        (job.title.getD "") then 30
  else 0

/-- Location overlap (weight 15): the full weight if the two locations substring-match. -/
def locationTerm (lower : String → String) (job : Job) (preferences : Option Preferences) : ℚ :=
  if locationApplies job preferences ∧
      substringMatch lower ((preferences.bind fun p => p.location).getD "")
        (job.location.getD "") then 15
  else 0

/-- Remote-preference equality (weight 10): the full weight if the two flags are equal. -/
def remoteTerm (job : Job) (preferences : Option Preferences) : ℚ :=
  if remoteApplies job preferences ∧ (preferences.bind fun p => p.remote) = job.remote then 10
  else 0

/-- Experience-level equality (weight 5): the full weight if the two levels are equal. -/
def experienceTerm (job : Job) (preferences : Option Preferences) : ℚ :=
  if experienceApplies job preferences ∧
      (preferences.bind fun p => p.experienceLevel) = job.experienceLevel then 5
  else 0

/-- The weighted sum of the five terms. -/
def weightedSum (lower : String → String) (job : Job) (resume : Option Resume)
    (preferences : Option Preferences) : ℚ :=
  skillsTerm lower job resume preferences + titleTerm lower job preferences +
    locationTerm lower job preferences + remoteTerm job preferences +
    experienceTerm job preferences

/-- The number of applicable factors. -/
def applicableFactors (job : Job) (resume : Option Resume) (preferences : Option Preferences) :
    Nat :=
  (if skillsApply job resume preferences then 1 else 0) +
    (if titleApplies job preferences then 1 else 0) +
    (if locationApplies job preferences then 1 else 0) +
    (if remoteApplies job preferences then 1 else 0) +
    (if experienceApplies job preferences then 1 else 0)

/-- Clamping to the interval from 0 to 100. -/
def clamp100 (x : ℚ) : ℚ := min 100 (max 0 x)

/-- The record of the scoring example. -/
def exampleJob : Job :=
  { id := none, title := some "Backend Engineer", company := some "Acme",
    location := some "Remote", remote := some true, skills := some ["Go", "SQL"],
    experienceLevel := none }

/-- The resume of the scoring example. -/
def exampleResume : Resume :=
  { name := none, fileName := none, uploadedAt := none, atsScore := none, atsBreakdown := none,
    skills := some ["Go", "Python"], missingKeywords := none, professionalSummary := none }

/-- The preferences of the scoring example. -/
def examplePreferences : Preferences :=
  { jobTitle := some "Backend Engineer", location := some "Remote", remote := some true,
    salaryRange := none, experienceLevel := some "Senior", industries := none, skills := none }

/-- The empty record `{}`. -/
def emptyJob : Job :=
  { id := none, title := none, company := none, location := none, remote := none,
    skills := none, experienceLevel := none }

/-- A record that has a title and nothing else. -/
def titled (title : String) : Job := { emptyJob with title := some title }

/-- Preferences that have a job title and nothing else. -/
def seeking (jobTitle : String) : Preferences :=
  { jobTitle := some jobTitle, location := none, remote := none, salaryRange := none,
    experienceLevel := none, industries := none, skills := none }

/-- The largest value below 1 that `Math.random()` returns among the multiples of `2^-52`. -/
def nearOne : ℚ := 1 - 1 / 2 ^ 52

/-! ## The set operations over a store whose writes can fail

`localStorage.setItem` throws a `QuotaExceededError` when the medium refuses the write. Each
setter starts with its `setItem`, so a refused write ends the call there; `accepts key` tells
whether a write to `key` succeeds during the call. -/

/-- The keys of `KEYS`. -/
inductive Key where
  | USER
  | RESUME
  | PREFERENCES
  | ANALYSIS
  | JOBS
  | METRICS
  deriving DecidableEq, Repr

namespace Fallible

/-- `setMetrics(metrics)`. -/
def setMetrics (accepts : Key → Bool) (metrics : Metrics) (s : State) : Outcome :=
  if accepts Key.METRICS then
    Outcome.ok (notify (Event.metricsUpdated metrics) { s with metrics := some metrics })
  else ⟨s, some JsError.quotaExceeded⟩

/-- `setUser(user)`. -/
def setUser (accepts : Key → Bool) (user : Profile) (s : State) : Outcome :=
  if accepts Key.USER then
    Outcome.ok (notify (Event.userUpdated user) { s with user := some user })
  else ⟨s, some JsError.quotaExceeded⟩

/-- `setPreferences(preferences)`. -/
def setPreferences (accepts : Key → Bool) (preferences : Preferences) (s : State) : Outcome :=
  if accepts Key.PREFERENCES then
    Outcome.ok (notify (Event.preferencesUpdated preferences)
      { s with preferences := some preferences })
  else ⟨s, some JsError.quotaExceeded⟩

/-- `setResume(resume)`. -/
def setResume (accepts : Key → Bool) (resume : Resume) (s : State) : Outcome :=
  if accepts Key.RESUME then
    let s := notify (Event.resumeUpdated resume) { s with resume := some resume }
    match getMetrics s with
    | none => Outcome.raise s
    | some metrics => setMetrics accepts { metrics with resumeUploaded := true } s
  else ⟨s, some JsError.quotaExceeded⟩

/-- `setAnalysis(analysis)`. -/
def setAnalysis (accepts : Key → Bool) (now : String) (analysis : Analysis) (s : State) :
    Outcome :=
  if accepts Key.ANALYSIS then
    let s := notify (Event.analysisUpdated analysis) { s with analysis := some analysis }
    match getMetrics s with
    | none => Outcome.raise s
    | some metrics => setMetrics accepts (analysisMetrics now analysis metrics) s
  else ⟨s, some JsError.quotaExceeded⟩

/-- `setJobs(jobs)`. -/
def setJobs (accepts : Key → Bool) (jobs : List Job) (s : State) : Outcome :=
  if accepts Key.JOBS then
    let s := notify (Event.jobsUpdated jobs) { s with jobs := some jobs }
    match getMetrics s with
    | none => Outcome.raise s
    | some metrics => setMetrics accepts { metrics with jobsFound := jobs.length } s
  else ⟨s, some JsError.quotaExceeded⟩

end Fallible

/-! ## The getters over stored text

`localStorage.getItem` returns `null` or the stored text, and `JSON.parse` throws a `SyntaxError`
on text that is not JSON; `parse text = none` stands for that. -/

/-- The six entries as text. -/
structure TextStore where
  rba_user : Option String
  rba_resume : Option String
  rba_preferences : Option String
  rba_analysis : Option String
  rba_jobs : Option String
  rba_metrics : Option String
  deriving DecidableEq, Repr

/-- The expression `item ? JSON.parse(item) : fallback`; `null` and the empty text are falsy. -/
def parseOr {α : Type} (parse : String → Option α) (fallback : α) (item : Option String) :
    Except JsError α :=
  match item with
  | none => Except.ok fallback
  | some text =>
    if text = "" then Except.ok fallback
    else
      match parse text with
      | some value => Except.ok value
      | none => Except.error JsError.syntaxError

namespace Text

/-- `getUser()`. -/
def getUser (parse : String → Option Profile) (store : TextStore) :
    Except JsError (Option Profile) :=
  parseOr (fun text => (parse text).map some) none store.rba_user

/-- `getResume()`. -/
def getResume (parse : String → Option Resume) (store : TextStore) :
    Except JsError (Option Resume) :=
  parseOr (fun text => (parse text).map some) none store.rba_resume

/-- `getPreferences()`. -/
def getPreferences (parse : String → Option Preferences) (store : TextStore) :
    Except JsError (Option Preferences) :=
  parseOr (fun text => (parse text).map some) none store.rba_preferences

/-- `getAnalysis()`. -/
def getAnalysis (parse : String → Option Analysis) (store : TextStore) :
    Except JsError (Option Analysis) :=
  parseOr (fun text => (parse text).map some) none store.rba_analysis

/-- `getJobs()`. -/
def getJobs (parse : String → Option (List Job)) (store : TextStore) :
    Except JsError (List Job) :=
  parseOr parse [] store.rba_jobs

/-- `getMetrics()`. -/
def getMetrics (parse : String → Option Metrics) (store : TextStore) :
    Except JsError (Option Metrics) :=
  parseOr (fun text => (parse text).map some) none store.rba_metrics

end Text

/-- A text store in which no key is set. -/
def TextStore.empty : TextStore :=
  { rba_user := none, rba_resume := none, rba_preferences := none, rba_analysis := none,
    rba_jobs := none, rba_metrics := none }

/-- A stand-in for `JSON.parse` that rejects every text. -/
def rejectAll {α : Type} (_ : String) : Option α := none

/-! ## Type defaults named by the specification -/

/-- The default Preferences: the value `init` stores when the entry is unset. -/
def defaultPreferences : Preferences :=
  { jobTitle := some "", location := some "", remote := some false, salaryRange := some "",
    experienceLevel := some "", industries := some [], skills := some [] }

/-- The default Metrics: the value `init` stores when the entry is unset. -/
def defaultMetrics : Metrics :=
  { lastAnalysisDate := none, totalAnalyses := 0, averageATSScore := 0, jobsFound := 0,
    resumeUploaded := false }

/-- A partial update that carries only skills. -/
def skillsOnly (skills : List String) : Preferences :=
  { jobTitle := none, location := none, remote := none, salaryRange := none,
    experienceLevel := none, industries := none, skills := some skills }

/-- A callback that returns normally. -/
def quiet (id : Nat) : Handler := { id := id, raises := fun _ => false }

/-- A callback that throws on every call. -/
def faulty (id : Nat) : Handler := { id := id, raises := fun _ => true }

/-! ## Vocabulary of the stated properties -/

/-- The call is an Analysis write: `setAnalysis`, or a `hydrate` whose payload has a defined
score (it calls `setAnalysis`). -/
def Op.writesAnalysis : Op → Bool
  | Op.setAnalysis _ _ => true
  | Op.hydrate _ (some data) => data.atsScore.isSome
  | _ => false

/-- The call is a Resume write: `setResume`, or a `hydrate` whose payload has a resume name or a
defined score (it calls `setResume`). -/
def Op.writesResume : Op → Bool
  | Op.setResume _ => true
  | Op.hydrate _ (some data) => truthyStr data.resumeName || data.atsScore.isSome
  | _ => false

/-- The arithmetic mean of a sequence of scores. -/
def mean (scores : List Int) : ℚ := (scores.sum : ℚ) / (scores.length : ℚ)

/-- An Analysis value that carries at most a score. -/
def scoreOnly (score : Option Int) : Analysis :=
  { atsScore := score, breakdown := none, skills := none, analyzedAt := none }

/-- One Analysis write per entry, in order; `none` is a write without a score. -/
def writeScores (now : String) (scores : List (Option Int)) : List Op :=
  scores.map fun score => Op.setAnalysis now (scoreOnly score)

/-- The dedup key in the words of the specification: the ids decide when both records have a
non-empty id, and title with company decide otherwise. -/
def sameRecordSpec (job j : Job) : Bool :=
  if truthyStr job.id && truthyStr j.id then decide (j.id = job.id)
  else decide (j.title = job.title) && decide (j.company = job.company)

/-- The record `{id: id, title: title, company: company}`, `none` for an absent id. -/
def record (id : Option String) (title company : String) : Job :=
  { id := id, title := some title, company := some company, location := none, remote := none,
    skills := none, experienceLevel := none }

/-- The payload of the hydration example. -/
def examplePayload : Payload :=
  { resumeName := some "r.pdf", uploadedAt := none, atsScore := some 75, atsBreakdown := none,
    skills := some ["Go"] }

/-- A profile update that sets the name. -/
def exampleProfile : Profile := { name := some "Ann", email := none, createdAt := none }

/-- The payload `{atsScore: 75}`: a defined score and no `skills` field. -/
def scorePayload : Payload :=
  { resumeName := none, uploadedAt := none, atsScore := some 75, atsBreakdown := none,
    skills := none }

/-- A container with three subscribers to `jobsUpdated`, the second of which throws, and one
subscriber to `userUpdated`. -/
def subscribed : State :=
  (onEvent "jobsUpdated" (quiet 3) (onEvent "userUpdated" (quiet 9)
    (onEvent "jobsUpdated" (faulty 2)
      (onEvent "jobsUpdated" (quiet 1) State.empty).state).state).state).state

/-- The state after `hydrate(data)`. -/
def hydrateOnce (now : String) (data : Payload) (s : State) : State :=
  (hydrate now (some data) s).state

/-- The state after `hydrate(data)` followed by `hydrate(data)`. -/
def hydrateTwice (now later : String) (data : Payload) (s : State) : State :=
  (hydrate later (some data) (hydrate now (some data) s).state).state

/-- The sequence `Preferences.skills`, empty when Preferences or the field is absent. -/
def preferenceSkills (s : State) : List String :=
  ((getPreferences s).bind fun p => p.skills).getD []

/-- Two records clash: they have the same title and the same company, or the same non-empty
id. -/
def clash (a b : Job) : Prop :=
  (a.title = b.title ∧ a.company = b.company) ∨
    ∃ id : String, id ≠ "" ∧ a.id = some id ∧ b.id = some id

/-- The call is `setJobs`. -/
def Op.isSetJobs : Op → Bool
  | Op.setJobs _ => true
  | _ => false

/-! # Theorems -/

/-! ## Scoring -/

theorem eitherIncludes_iff (lower : String → String) (a b : String) :
    eitherIncludes lower b a = true ↔ substringMatch lower a b := by
  simp [eitherIncludes, includes]

theorem skillMatches_iff (lower : String → String) (us : List String) (skill : String) :
    skillMatches lower us skill = true ↔ ∃ user ∈ us, substringMatch lower skill user := by
  simp only [skillMatches, List.any_eq_true, includes, Bool.or_eq_true, decide_eq_true_eq]
  constructor
  · rintro ⟨u, hu, h⟩
    exact ⟨u, hu, h.symm⟩
  · rintro ⟨u, hu, h⟩
    exact ⟨u, hu, h.symm⟩

theorem matchingSkills_eq (lower : String → String) (us js : List String) :
    matchingSkills lower us js = matchingCount lower us js := by
  unfold matchingSkills matchingCount
  rw [← List.countP_eq_length_filter]
  apply List.countP_congr
  intro skill _
  simp [skillMatches_iff]

theorem userSkills_eq (resume : Option Resume) (preferences : Option Preferences) :
    userSkills resume preferences = skillSource resume preferences := by
  unfold userSkills skillSource
  rcases resume with _ | ⟨n, f, u, a, b, sk, mk, ps⟩
  · rcases preferences with _ | p <;> simp
  · rcases sk with _ | sk
    · rcases preferences with _ | p <;> simp
    · rcases sk with _ | ⟨x, xs⟩
      · rcases preferences with _ | p <;> simp
      · simp

theorem truthyStr_iff (x : Option String) : truthyStr x = true ↔ present x := by
  rcases x with _ | v
  · simp [truthyStr, present]
  · simp [truthyStr, present]

theorem skillsFactor_eq (lower : String → String) (job : Job) (resume : Option Resume)
    (preferences : Option Preferences) (t : Tally) :
    skillsFactor lower job (userSkills resume preferences) t
      = ⟨t.score + skillsTerm lower job resume preferences,
          t.factors + (if skillsApply job resume preferences then 1 else 0)⟩ := by
  unfold skillsFactor skillsTerm skillsApply
  rw [userSkills_eq]
  obtain ⟨jid, jt, jc, jl, jr, js, je⟩ := job
  rcases js with _ | js
  · simp
  · by_cases h : skillSource resume preferences ≠ [] ∧ js ≠ []
    · have h' : (skillSource resume preferences).length > 0 ∧ js.length > 0 :=
        ⟨List.length_pos.mpr h.1, List.length_pos.mpr h.2⟩
      simp only [Option.getD_some, if_pos h, if_pos h', matchingSkills_eq]
      congr 1
      ring
    · have h' : ¬ ((skillSource resume preferences).length > 0 ∧ js.length > 0) := fun c =>
        h ⟨List.ne_nil_of_length_pos c.1, List.ne_nil_of_length_pos c.2⟩
      simp only [Option.getD_some, if_neg h, if_neg h', add_zero]

/-- The shape of a factor block: a test for applicability, and a weight added on a match. -/
theorem factor_eq (t : Tally) (c : Prop) [Decidable c] (m : Bool) (P M : Prop) [Decidable P]
    [Decidable M] (w : ℚ) (hc : c ↔ P) (hm : m = true ↔ M) :
    (if c then (⟨t.score + (if m = true then w else 0), t.factors + 1⟩ : Tally) else t)
      = ⟨t.score + (if P ∧ M then w else 0), t.factors + (if P then 1 else 0)⟩ := by
  by_cases hP : P
  · by_cases hM : M
    · simp [hc.mpr hP, hm.mpr hM, hP, hM]
    · have : ¬ m = true := fun h => hM (hm.mp h)
      simp [hc.mpr hP, this, hP, hM]
  · have : ¬ c := fun h => hP (hc.mp h)
    simp [this, hP]

theorem titleFactor_eq (lower : String → String) (job : Job) (preferences : Option Preferences)
    (t : Tally) :
    titleFactor lower job preferences t
      = ⟨t.score + titleTerm lower job preferences,
          t.factors + (if titleApplies job preferences then 1 else 0)⟩ := by
  rcases preferences with _ | p
  · simp [titleFactor, titleTerm, titleApplies, present]
  · exact factor_eq t _ _ _ _ 30
      (and_congr (truthyStr_iff _) (truthyStr_iff _)) (eitherIncludes_iff lower _ _)

theorem locationFactor_eq (lower : String → String) (job : Job)
    (preferences : Option Preferences) (t : Tally) :
    locationFactor lower job preferences t
      = ⟨t.score + locationTerm lower job preferences,
          t.factors + (if locationApplies job preferences then 1 else 0)⟩ := by
  rcases preferences with _ | p
  · simp [locationFactor, locationTerm, locationApplies, present]
  · exact factor_eq t _ _ _ _ 15
      (and_congr (truthyStr_iff _) (truthyStr_iff _)) (eitherIncludes_iff lower _ _)

theorem remoteFactor_eq (job : Job) (preferences : Option Preferences) (t : Tally) :
    remoteFactor job preferences t
      = ⟨t.score + remoteTerm job preferences,
          t.factors + (if remoteApplies job preferences then 1 else 0)⟩ := by
  obtain ⟨jid, jt, jc, jl, jr, js, je⟩ := job
  rcases preferences with _ | ⟨pt, pl, pr, ps, pe, pi, pk⟩
  · simp [remoteFactor, remoteTerm, remoteApplies]
  · rcases pr with _ | a <;> rcases jr with _ | b <;> simp [remoteFactor, remoteTerm, remoteApplies]
    by_cases h : a = b <;> simp [h]

theorem experienceFactor_eq (job : Job) (preferences : Option Preferences) (t : Tally) :
    experienceFactor job preferences t
      = ⟨t.score + experienceTerm job preferences,
          t.factors + (if experienceApplies job preferences then 1 else 0)⟩ := by
  rcases preferences with _ | p
  · simp [experienceFactor, experienceTerm, experienceApplies, present]
  · have h := factor_eq t (truthyStr p.experienceLevel = true ∧ truthyStr job.experienceLevel = true)
      (decide (p.experienceLevel = job.experienceLevel))
      (present p.experienceLevel ∧ present job.experienceLevel)
      (p.experienceLevel = job.experienceLevel) 5
      (and_congr (truthyStr_iff _) (truthyStr_iff _)) (by simp)
    simp only [decide_eq_true_eq] at h
    refine Eq.trans ?_ h
    unfold experienceFactor
    simp only []
    by_cases hc : truthyStr p.experienceLevel = true ∧ truthyStr job.experienceLevel = true
    · by_cases he : p.experienceLevel = job.experienceLevel
      · simp [hc, he]
      · simp [hc, he]
    · simp [hc]

/-- The locals `score` and `factors` are the weighted sum of the five terms and the number of
applicable factors. -/
theorem tally_eq (lower : String → String) (job : Job) (resume : Option Resume)
    (preferences : Option Preferences) :
    tally lower job resume preferences
      = ⟨weightedSum lower job resume preferences, applicableFactors job resume preferences⟩ := by
  unfold tally weightedSum applicableFactors
  rw [skillsFactor_eq, titleFactor_eq, locationFactor_eq, remoteFactor_eq, experienceFactor_eq]
  simp

/-- Rounding after clamping is clamping after rounding. -/
theorem round_clamp (x : ℚ) : Math.round (clamp100 x) = min 100 (max 0 (Math.round x)) := by
  unfold Math.round clamp100
  rcases le_total x 0 with h0 | h0
  · have h1 : ⌊x + 1 / 2⌋ ≤ 0 := by
      have : ⌊x + 1 / 2⌋ < 1 := by rw [Int.floor_lt]; push_cast; linarith
      omega
    rw [max_eq_left h0, max_eq_left h1]
    norm_num
  · rcases le_total x 100 with h2 | h2
    · have h3 : (0 : Int) ≤ ⌊x + 1 / 2⌋ := by rw [Int.le_floor]; push_cast; linarith
      have h4 : ⌊x + 1 / 2⌋ ≤ 100 := by
        have : ⌊x + 1 / 2⌋ < 101 := by rw [Int.floor_lt]; push_cast; linarith
        omega
      rw [max_eq_right h0, min_eq_right h2, max_eq_right h3, min_eq_right h4]
    · have h3 : (100 : Int) ≤ ⌊x + 1 / 2⌋ := by rw [Int.le_floor]; push_cast; linarith
      have h5 : (0 : ℚ) ≤ 100 := by norm_num
      rw [max_eq_right h0, min_eq_left h2, max_eq_right (le_trans (by norm_num) h3),
        min_eq_left h3]
      rw [Int.floor_eq_iff]
      norm_num

/-! ### Rounding to a double -/

theorem roundHalfEven_le (y : ℚ) (n : Int) (h : y ≤ n) : roundHalfEven y ≤ n := by
  have hf : (⌊y⌋ : ℚ) ≤ y := Int.floor_le y
  have hfn : ⌊y⌋ ≤ n := by exact_mod_cast hf.trans h
  unfold roundHalfEven
  have step : ¬ (y - ⌊y⌋ < 1 / 2) → ⌊y⌋ + 1 ≤ n := by
    intro hc
    have h1 : (⌊y⌋ : ℚ) < n := by linarith [not_lt.mp hc]
    have : ⌊y⌋ < n := by exact_mod_cast h1
    omega
  split_ifs with h1 h2 h3
  · exact hfn
  · exact step h1
  · exact hfn
  · exact step h1

theorem le_roundHalfEven (y : ℚ) (n : Int) (h : (n : ℚ) ≤ y) : n ≤ roundHalfEven y := by
  have hfn : n ≤ ⌊y⌋ := Int.le_floor.mpr h
  unfold roundHalfEven
  split_ifs <;> omega

theorem roundHalfEven_of_lt_half (y : ℚ) (f : Int) (h1 : (f : ℚ) ≤ y) (h2 : y < f + 1 / 2) :
    roundHalfEven y = f := by
  have hf : ⌊y⌋ = f := by
    rw [Int.floor_eq_iff]
    exact ⟨h1, by linarith⟩
  unfold roundHalfEven
  rw [hf, if_pos (by linarith)]

theorem roundHalfEven_of_half_lt (y : ℚ) (f : Int) (h1 : (f : ℚ) + 1 / 2 < y)
    (h2 : y < f + 1) : roundHalfEven y = f + 1 := by
  have hf : ⌊y⌋ = f := by
    rw [Int.floor_eq_iff]
    exact ⟨by linarith, h2⟩
  unfold roundHalfEven
  rw [hf, if_neg (by linarith), if_pos (by linarith)]

theorem roundHalfEven_of_half (y : ℚ) (f : Int) (h : y = f + 1 / 2) :
    roundHalfEven y = if f % 2 = 0 then f else f + 1 := by
  have hf : ⌊y⌋ = f := by
    rw [Int.floor_eq_iff]
    exact ⟨by linarith, by linarith⟩
  unfold roundHalfEven
  rw [hf, if_neg (by linarith), if_neg (by linarith)]

/-- Below `2^53` the spacing of the doubles is at most 1. -/
theorem ulpExponent_nonpos (x : ℚ) (h : |x| < 2 ^ 53) : ulpExponent x ≤ 0 := by
  unfold ulpExponent
  have hlog : Int.log 2 |x| ≤ 52 := by
    rcases (abs_nonneg x).eq_or_lt with h0 | h0
    · rw [← h0, Int.log_zero_right]
      norm_num
    · have : Int.log 2 |x| < 53 := by
        rw [← Int.lt_zpow_iff_log_lt (by norm_num) h0]
        exact_mod_cast h
      omega
  have : max (Int.log 2 |x|) (-1022) ≤ 52 := max_le hlog (by norm_num)
  omega

/-- An integer is a multiple of every spacing that is at most 1. -/
theorem int_div_spacing (c k : Int) (hk : k ≤ 0) :
    (c : ℚ) / (2 : ℚ) ^ k = ((c * 2 ^ k.natAbs : Int) : ℚ) := by
  obtain ⟨n, rfl⟩ : ∃ n : Nat, k = -(n : Int) := ⟨k.natAbs, by omega⟩
  simp [zpow_neg]

/-- Rounding to a double does not cross an integer: from below. -/
theorem roundDouble_le (x : ℚ) (c : Int) (hx : |x| < 2 ^ 53) (h : x ≤ c) : roundDouble x ≤ c := by
  have hk := ulpExponent_nonpos x hx
  have hq : (0 : ℚ) < (2 : ℚ) ^ ulpExponent x := by positivity
  unfold roundDouble
  have h1 : x / (2 : ℚ) ^ ulpExponent x ≤ ((c * 2 ^ (ulpExponent x).natAbs : Int) : ℚ) := by
    rw [← int_div_spacing c _ hk]
    exact div_le_div_of_nonneg_right h hq.le
  have h2 := roundHalfEven_le _ _ h1
  have h3 : (roundHalfEven (x / (2 : ℚ) ^ ulpExponent x) : ℚ)
      ≤ ((c * 2 ^ (ulpExponent x).natAbs : Int) : ℚ) := by exact_mod_cast h2
  rw [← int_div_spacing c _ hk] at h3
  calc (roundHalfEven (x / (2 : ℚ) ^ ulpExponent x) : ℚ) * (2 : ℚ) ^ ulpExponent x
      ≤ (c : ℚ) / (2 : ℚ) ^ ulpExponent x * (2 : ℚ) ^ ulpExponent x :=
        mul_le_mul_of_nonneg_right h3 hq.le
    _ = c := div_mul_cancel₀ _ hq.ne'

/-- Rounding to a double does not cross an integer: from above. -/
theorem le_roundDouble (x : ℚ) (c : Int) (hx : |x| < 2 ^ 53) (h : (c : ℚ) ≤ x) :
    (c : ℚ) ≤ roundDouble x := by
  have hk := ulpExponent_nonpos x hx
  have hq : (0 : ℚ) < (2 : ℚ) ^ ulpExponent x := by positivity
  unfold roundDouble
  have h1 : ((c * 2 ^ (ulpExponent x).natAbs : Int) : ℚ) ≤ x / (2 : ℚ) ^ ulpExponent x := by
    rw [← int_div_spacing c _ hk]
    exact div_le_div_of_nonneg_right h hq.le
  have h2 := le_roundHalfEven _ _ h1
  have h3 : ((c * 2 ^ (ulpExponent x).natAbs : Int) : ℚ)
      ≤ (roundHalfEven (x / (2 : ℚ) ^ ulpExponent x) : ℚ) := by exact_mod_cast h2
  rw [← int_div_spacing c _ hk] at h3
  calc (c : ℚ) = (c : ℚ) / (2 : ℚ) ^ ulpExponent x * (2 : ℚ) ^ ulpExponent x :=
        (div_mul_cancel₀ _ hq.ne').symm
    _ ≤ (roundHalfEven (x / (2 : ℚ) ^ ulpExponent x) : ℚ) * (2 : ℚ) ^ ulpExponent x :=
        mul_le_mul_of_nonneg_right h3 hq.le

/-- The two roundings of a fallback, `random * a + b` with `random` in `[0,1)`, stay between `b`
and `a + b`. -/
theorem fallback_bounds (random : ℚ) (h0 : 0 ≤ random) (h1 : random < 1) (a b : Int)
    (ha : 0 ≤ a) (hb : 0 ≤ b) (hab : a + b < 1000) :
    b ≤ Math.floor (roundDouble (roundDouble (random * a) + b)) ∧
      Math.floor (roundDouble (roundDouble (random * a) + b)) ≤ a + b := by
  have ha' : (0 : ℚ) ≤ a := by exact_mod_cast ha
  have hb' : (0 : ℚ) ≤ b := by exact_mod_cast hb
  have hab' : (a : ℚ) + b < 1000 := by exact_mod_cast hab
  have hx0 : (0 : ℚ) ≤ random * a := mul_nonneg h0 ha'
  have hx1 : random * a ≤ a := by nlinarith
  have hxa : |random * (a : ℚ)| < 2 ^ 53 := by
    rw [abs_of_nonneg hx0]
    have : (1000 : ℚ) < 2 ^ 53 := by norm_num
    linarith
  have hp0 : (0 : ℚ) ≤ roundDouble (random * a) := by
    have := le_roundDouble (random * a) 0 hxa (by simpa using hx0)
    simpa using this
  have hp1 : roundDouble (random * a) ≤ a := roundDouble_le (random * a) a hxa hx1
  have hsa : |roundDouble (random * a) + (b : ℚ)| < 2 ^ 53 := by
    rw [abs_of_nonneg (by linarith)]
    have : (1000 : ℚ) < 2 ^ 53 := by norm_num
    linarith
  have hs0 : (b : ℚ) ≤ roundDouble (roundDouble (random * a) + b) :=
    le_roundDouble _ b hsa (by linarith)
  have hs1 : roundDouble (roundDouble (random * a) + b) ≤ ((a + b : Int) : ℚ) :=
    roundDouble_le _ (a + b) hsa (by push_cast; linarith)
  unfold Math.floor
  constructor
  · exact Int.le_floor.mpr hs0
  · have : (⌊roundDouble (roundDouble (random * a) + b)⌋ : ℚ) ≤ ((a + b : Int) : ℚ) :=
      (Int.floor_le _).trans hs1
    exact_mod_cast this

/-- The double nearest to a positive `x` with `2^e ≤ x < 2^(e+1)`, in the normal range. -/
theorem roundDouble_of_binade (x : ℚ) (e n : Int) (hx : 0 < x) (h1 : (2 : ℚ) ^ e ≤ x)
    (h2 : x < (2 : ℚ) ^ (e + 1)) (he : -1022 ≤ e)
    (hn : roundHalfEven (x / (2 : ℚ) ^ (e - 52)) = n) :
    roundDouble x = (n : ℚ) * (2 : ℚ) ^ (e - 52) := by
  have hlog : Int.log 2 |x| = e := by
    rw [abs_of_pos hx]
    apply le_antisymm
    · have : Int.log 2 x < e + 1 := by
        rw [← Int.lt_zpow_iff_log_lt (by norm_num) hx]
        exact_mod_cast h2
      omega
    · rw [← Int.zpow_le_iff_le_log (by norm_num) hx]
      exact_mod_cast h1
  have hu : ulpExponent x = e - 52 := by
    unfold ulpExponent
    rw [hlog, max_eq_left he]
  unfold roundDouble
  rw [hu, hn]

/-- In doubles, `nearOne * 20 + 60` is 80. -/
theorem nearOne_skills_fallback : roundDouble (roundDouble (nearOne * 20) + 60) = 80 := by
  have h1 : roundDouble (nearOne * 20) = 20 - 1 / 2 ^ 48 := by
    rw [roundDouble_of_binade (nearOne * 20) 4 5629499534213119 (by norm_num [nearOne])
      (by norm_num [nearOne]) (by norm_num [nearOne]) (by norm_num)
      (by
        have := roundHalfEven_of_half_lt (nearOne * 20 / (2 : ℚ) ^ ((4 : Int) - 52))
          5629499534213118 (by norm_num [nearOne]) (by norm_num [nearOne])
        simpa using this)]
    norm_num
  rw [h1, roundDouble_of_binade (20 - 1 / 2 ^ 48 + 60) 6 5629499534213120 (by norm_num)
    (by norm_num) (by norm_num) (by norm_num)
    (by
      have := roundHalfEven_of_half_lt ((20 - 1 / 2 ^ 48 + 60) / (2 : ℚ) ^ ((6 : Int) - 52))
        5629499534213119 (by norm_num) (by norm_num)
      simpa using this)]
  norm_num

/-- In doubles, `nearOne * 30 + 50` is 80. -/
theorem nearOne_plain_fallback : roundDouble (roundDouble (nearOne * 30) + 50) = 80 := by
  have h1 : roundDouble (nearOne * 30) = 30 - 1 / 2 ^ 47 := by
    rw [roundDouble_of_binade (nearOne * 30) 4 8444249301319678 (by norm_num [nearOne])
      (by norm_num [nearOne]) (by norm_num [nearOne]) (by norm_num)
      (roundHalfEven_of_lt_half (nearOne * 30 / (2 : ℚ) ^ ((4 : Int) - 52))
        8444249301319678 (by norm_num [nearOne]) (by norm_num [nearOne]))]
    norm_num
  rw [h1, roundDouble_of_binade (30 - 1 / 2 ^ 47 + 50) 6 5629499534213120 (by norm_num)
    (by norm_num) (by norm_num) (by norm_num)
    (by
      have := roundHalfEven_of_half ((30 - 1 / 2 ^ 47 + 50) / (2 : ℚ) ^ ((6 : Int) - 52))
        5629499534213119 (by norm_num)
      simpa using this)]
  norm_num

/-- The spacing of the doubles around `x`, when `|x| < 2^(e+1)`. -/
theorem ulpExponent_le (x : ℚ) (e : Int) (h : |x| < (2 : ℚ) ^ (e + 1)) (he : 0 ≤ e) :
    ulpExponent x ≤ e - 52 := by
  unfold ulpExponent
  have hlog : Int.log 2 |x| ≤ e := by
    rcases (abs_nonneg x).eq_or_lt with h0 | h0
    · rw [← h0, Int.log_zero_right]
      exact he
    · have : Int.log 2 |x| < e + 1 := by
        rw [← Int.lt_zpow_iff_log_lt (by norm_num) h0]
        exact_mod_cast h
      omega
  have : max (Int.log 2 |x|) (-1022) ≤ e := max_le hlog (by omega)
  omega

/-- A multiple of `2^j` is a multiple of every smaller spacing. -/
theorem dyadic_div_spacing (m j k : Int) (hk : k ≤ j) :
    (m : ℚ) * (2 : ℚ) ^ j / (2 : ℚ) ^ k = ((m * 2 ^ (j - k).natAbs : Int) : ℚ) := by
  obtain ⟨n, hn⟩ : ∃ n : Nat, j - k = (n : Int) := ⟨(j - k).natAbs, by omega⟩
  have hj : j = k + n := by omega
  rw [hn, hj, zpow_add₀ (by norm_num : (2 : ℚ) ≠ 0)]
  have hq : (2 : ℚ) ^ k ≠ 0 := by positivity
  field_simp
  ring

/-- Rounding to a double does not cross a double of a coarser spacing: from below. -/
theorem roundDouble_le_dyadic (x : ℚ) (m j : Int) (hj : ulpExponent x ≤ j)
    (h : x ≤ (m : ℚ) * (2 : ℚ) ^ j) : roundDouble x ≤ (m : ℚ) * (2 : ℚ) ^ j := by
  have hq : (0 : ℚ) < (2 : ℚ) ^ ulpExponent x := by positivity
  unfold roundDouble
  have h1 : x / (2 : ℚ) ^ ulpExponent x
      ≤ ((m * 2 ^ (j - ulpExponent x).natAbs : Int) : ℚ) := by
    rw [← dyadic_div_spacing m j _ hj]
    exact div_le_div_of_nonneg_right h hq.le
  have h2 := roundHalfEven_le _ _ h1
  have h3 : (roundHalfEven (x / (2 : ℚ) ^ ulpExponent x) : ℚ)
      ≤ ((m * 2 ^ (j - ulpExponent x).natAbs : Int) : ℚ) := by exact_mod_cast h2
  rw [← dyadic_div_spacing m j _ hj] at h3
  calc (roundHalfEven (x / (2 : ℚ) ^ ulpExponent x) : ℚ) * (2 : ℚ) ^ ulpExponent x
      ≤ (m : ℚ) * (2 : ℚ) ^ j / (2 : ℚ) ^ ulpExponent x * (2 : ℚ) ^ ulpExponent x :=
        mul_le_mul_of_nonneg_right h3 hq.le
    _ = (m : ℚ) * (2 : ℚ) ^ j := div_mul_cancel₀ _ hq.ne'

/-- Away from 1, the two roundings of a fallback stay below the top: for `random` in `[0,1)` with
`random ≤ 1 - 2^-50`, and `a` between 16 and 31 with `a + b = 80`, the double is below 80. -/
theorem fallback_below_top (random : ℚ) (h0 : 0 ≤ random) (h1 : random ≤ 1 - 1 / 2 ^ 50)
    (a b : Int) (ha : 16 ≤ a) (ha' : a < 32) (hab : a + b = 80) :
    Math.floor (roundDouble (roundDouble (random * a) + b)) < 80 := by
  have haq : (16 : ℚ) ≤ a := by exact_mod_cast ha
  have haq' : (a : ℚ) < 32 := by exact_mod_cast ha'
  have hbq : (b : ℚ) = 80 - a := by
    have : ((a + b : Int) : ℚ) = 80 := by exact_mod_cast hab
    push_cast at this
    linarith
  have hx0 : (0 : ℚ) ≤ random * a := mul_nonneg h0 (by linarith)
  -- the product is at most `a - 2^-46`, a double of spacing `2^-46`
  have hx1 : random * a ≤ ((a * 2 ^ 46 - 1 : Int) : ℚ) * (2 : ℚ) ^ (-46 : Int) := by
    have e1 : ((a * 2 ^ 46 - 1 : Int) : ℚ) * (2 : ℚ) ^ (-46 : Int) = a - 1 / 2 ^ 46 := by
      push_cast
      rw [zpow_neg]
      norm_num
      ring
    rw [e1]
    have : random * a ≤ (1 - 1 / 2 ^ 50) * a := mul_le_mul_of_nonneg_right h1 (by linarith)
    have h16 : (1 : ℚ) / 2 ^ 46 ≤ 1 / 2 ^ 50 * a := by
      have : (1 : ℚ) / 2 ^ 46 = 1 / 2 ^ 50 * 16 := by norm_num
      rw [this]
      exact mul_le_mul_of_nonneg_left haq (by positivity)
    linarith
  have hu1 : ulpExponent (random * a) ≤ -46 := by
    have := ulpExponent_le (random * a) 4 (by
      rw [abs_of_nonneg hx0]
      have : random * a ≤ a := by nlinarith
      norm_num
      linarith) (by norm_num)
    omega
  have hp := roundDouble_le_dyadic (random * a) _ (-46) hu1 hx1
  have hp0 : (0 : ℚ) ≤ roundDouble (random * a) := by
    have := le_roundDouble (random * a) 0 (by
      rw [abs_of_nonneg hx0]
      have : random * a ≤ a := by nlinarith
      have : (32 : ℚ) < 2 ^ 53 := by norm_num
      linarith) (by simpa using hx0)
    simpa using this
  have e1 : ((a * 2 ^ 46 - 1 : Int) : ℚ) * (2 : ℚ) ^ (-46 : Int) = a - 1 / 2 ^ 46 := by
    push_cast
    rw [zpow_neg]
    norm_num
    ring
  rw [e1] at hp
  -- the sum is at most `80 - 2^-46`, a double of spacing `2^-46`
  have e2 : ((80 * 2 ^ 46 - 1 : Int) : ℚ) * (2 : ℚ) ^ (-46 : Int) = 80 - 1 / 2 ^ 46 := by
    push_cast
    rw [zpow_neg]
    norm_num
  have hs1 : roundDouble (random * a) + b ≤ ((80 * 2 ^ 46 - 1 : Int) : ℚ) * (2 : ℚ) ^ (-46 : Int) := by
    rw [e2, hbq]
    linarith
  have hs0 : (0 : ℚ) ≤ roundDouble (random * a) + b := by
    rw [hbq]
    linarith
  have hu2 : ulpExponent (roundDouble (random * a) + b) ≤ -46 := by
    have := ulpExponent_le (roundDouble (random * a) + b) 6 (by
      rw [abs_of_nonneg hs0, hbq]
      norm_num
      have : (0 : ℚ) < 1 / 2 ^ 46 := by positivity
      linarith) (by norm_num)
    omega
  have hs := roundDouble_le_dyadic _ _ (-46) hu2 hs1
  rw [e2] at hs
  unfold Math.floor
  rw [Int.floor_lt]
  have : (0 : ℚ) < 1 / 2 ^ 46 := by positivity
  push_cast
  linarith

/-- The locals `score` and `factors` on the scoring example. -/
theorem exampleTally :
    tally asciiLower exampleJob (some exampleResume) (some examplePreferences) = ⟨75, 4⟩ := by
  have hf : (tally asciiLower exampleJob (some exampleResume) (some examplePreferences)).factors
      = 4 := by decide
  have hs : (tally asciiLower exampleJob (some exampleResume) (some examplePreferences)).score
      = 75 := by
    have h1 : matchingSkills asciiLower ["Go", "Python"] ["Go", "SQL"] = 1 := by decide
    have h2 : eitherIncludes asciiLower "Backend Engineer" "Backend Engineer" = true := by decide
    have h3 : eitherIncludes asciiLower "Remote" "Remote" = true := by decide
    simp [tally, skillsFactor, titleFactor, locationFactor, remoteFactor, experienceFactor,
      exampleJob, exampleResume, examplePreferences, userSkills, truthyStr, h1, h2, h3]
    norm_num
  cases h : tally asciiLower exampleJob (some exampleResume) (some examplePreferences) with
  | mk sc f =>
    rw [h] at hf hs
    simp only at hf hs
    rw [hf, hs]

/-- With a factor counted, the result is the rounded, clamped weighted sum. -/
theorem weighted_path (lower : String → String) (random : ℚ) (job : Job)
    (resume : Option Resume) (preferences : Option Preferences)
    (h : (tally lower job resume preferences).factors ≠ 0) :
    calculateMatchPercentage lower random job resume preferences
      = Math.round (clamp100 (weightedSum lower job resume preferences)) := by
  unfold calculateMatchPercentage
  simp only [h, false_and, if_false]
  rw [round_clamp, tally_eq]

/-- C1: for every record, resume and preferences, with any field absent, and every value of the
random source in `[0,1)`, `calculateMatchPercentage` returns an integer between 0 and 100,
whatever function lower-cases the texts. -/
theorem C1_score_in_range (lower : String → String) (random : ℚ) (h0 : 0 ≤ random)
    (h1 : random < 1) (job : Job) (resume : Option Resume) (preferences : Option Preferences) :
    0 ≤ calculateMatchPercentage lower random job resume preferences ∧
      calculateMatchPercentage lower random job resume preferences ≤ 100 := by
  unfold calculateMatchPercentage
  simp only
  split_ifs with ha hb
  · have h := fallback_bounds random h0 h1 20 60 (by norm_num) (by norm_num) (by norm_num)
    norm_num at h
    omega
  · have h := fallback_bounds random h0 h1 30 50 (by norm_num) (by norm_num) (by norm_num)
    norm_num at h
    omega
  · exact ⟨le_min (by norm_num) (le_max_left _ _), min_le_left _ _⟩

/-- C1 at the scoring example with the random source at one half. -/
theorem C1_score_in_range_witness :
    (0 : ℚ) ≤ 1 / 2 ∧ (1 / 2 : ℚ) < 1 ∧
      0 ≤ calculateMatchPercentage asciiLower (1 / 2) exampleJob (some exampleResume)
        (some examplePreferences) ∧
      calculateMatchPercentage asciiLower (1 / 2) exampleJob (some exampleResume)
        (some examplePreferences) ≤ 100 :=
  ⟨by norm_num, by norm_num,
    C1_score_in_range asciiLower (1 / 2) (by norm_num) (by norm_num) exampleJob
      (some exampleResume) (some examplePreferences)⟩

/-- C2: when at least one factor is applicable (`factors ≥ 1`), `calculateMatchPercentage`
returns `round(clamp(40 × matching / length + 30 [titles match] + 15 [locations match]
+ 10 [remote flags equal] + 5 [levels equal]))`, each term counted only when its inputs are
present on both sides, a match being a case-insensitive substring match in either direction, and
the result is the same for every value of the random source; `factors` is the number of factors
whose inputs are present on both sides. On the scoring example `factors` is 4 and the score is 75.
Two titles that differ only in the case of a letter outside ASCII score the full 30. -/
theorem C2_weighted_sum (lower : String → String) (random : ℚ) (job : Job)
    (resume : Option Resume) (preferences : Option Preferences)
    (h : 1 ≤ (tally lower job resume preferences).factors) :
    calculateMatchPercentage lower random job resume preferences
        = Math.round (clamp100 (weightedSum lower job resume preferences)) ∧
      (∀ random' : ℚ, calculateMatchPercentage lower random' job resume preferences
        = calculateMatchPercentage lower random job resume preferences) ∧
      (tally lower job resume preferences).factors = applicableFactors job resume preferences ∧
      (tally asciiLower exampleJob (some exampleResume) (some examplePreferences)).factors = 4 ∧
      applicableFactors exampleJob (some exampleResume) (some examplePreferences) = 4 ∧
      weightedSum asciiLower exampleJob (some exampleResume) (some examplePreferences) = 75 ∧
      calculateMatchPercentage asciiLower random exampleJob (some exampleResume)
        (some examplePreferences) = 75 ∧
      (lower "CAFÉ MANAGER" = lower "café manager" →
        calculateMatchPercentage lower random (titled "CAFÉ MANAGER") none
          (some (seeking "café manager")) = 30) := by
  have hne : (tally lower job resume preferences).factors ≠ 0 := by omega
  have hex : weightedSum asciiLower exampleJob (some exampleResume) (some examplePreferences)
      = 75 := by
    have := tally_eq asciiLower exampleJob (some exampleResume) (some examplePreferences)
    rw [exampleTally] at this
    exact (congrArg Tally.score this).symm
  have hfac : applicableFactors exampleJob (some exampleResume) (some examplePreferences)
      = 4 := by
    have := tally_eq asciiLower exampleJob (some exampleResume) (some examplePreferences)
    rw [exampleTally] at this
    exact (congrArg Tally.factors this).symm
  refine ⟨weighted_path lower random job resume preferences hne,
    fun r => by rw [weighted_path lower r job resume preferences hne,
      weighted_path lower random job resume preferences hne],
    by rw [tally_eq], by rw [exampleTally], hfac, hex, ?_, ?_⟩
  · rw [weighted_path asciiLower random _ _ _ (by rw [exampleTally]; decide), hex]
    norm_num [Math.round, clamp100]
  · intro hl
    have hf : (tally lower (titled "CAFÉ MANAGER") none (some (seeking "café manager"))).factors
        ≠ 0 := by
      simp [tally, skillsFactor, titleFactor, locationFactor, remoteFactor, experienceFactor,
        titled, seeking, emptyJob, userSkills, truthyStr]
    rw [weighted_path lower random _ _ _ hf]
    have hw : weightedSum lower (titled "CAFÉ MANAGER") none (some (seeking "café manager"))
        = 30 := by
      simp [weightedSum, skillsTerm, titleTerm, locationTerm, remoteTerm, experienceTerm,
        skillsApply, titleApplies, locationApplies, remoteApplies, experienceApplies, present,
        substringMatch, skillSource, titled, seeking, emptyJob, hl]
    rw [hw]
    norm_num [Math.round, clamp100]

/-- C2 at the scoring example. -/
theorem C2_weighted_sum_witness :
    1 ≤ (tally asciiLower exampleJob (some exampleResume) (some examplePreferences)).factors ∧
      calculateMatchPercentage asciiLower 0 exampleJob (some exampleResume)
          (some examplePreferences)
        = Math.round (clamp100 (weightedSum asciiLower exampleJob (some exampleResume)
            (some examplePreferences))) :=
  ⟨by decide,
    (C2_weighted_sum asciiLower 0 exampleJob (some exampleResume) (some examplePreferences)
      (by decide)).1⟩

/-- C3 as stated fails: with the random source at `1 - 2^-52`, a value of `[0,1)` that is a
double, the product and the sum round up to 80 and both fallbacks return 80, which is outside
`[60,80)` and `[50,80)`. -/
theorem C3_near_one_returns_80 :
    (0 : ℚ) ≤ nearOne ∧ nearOne < 1 ∧ roundDouble nearOne = nearOne ∧
      (tally asciiLower emptyJob (some { exampleResume with skills := some ["Go"] })
        none).factors = 0 ∧
      userSkills (some { exampleResume with skills := some ["Go"] }) none ≠ [] ∧
      calculateMatchPercentage asciiLower nearOne emptyJob
        (some { exampleResume with skills := some ["Go"] }) none = 80 ∧
      (tally asciiLower emptyJob none none).factors = 0 ∧ userSkills none none = [] ∧
      calculateMatchPercentage asciiLower nearOne emptyJob none none = 80 := by
  have hd : roundDouble nearOne = nearOne := by
    rw [roundDouble_of_binade nearOne (-1) (2 ^ 53 - 2) (by norm_num [nearOne])
      (by norm_num [nearOne]) (by norm_num [nearOne]) (by norm_num)
      (roundHalfEven_of_lt_half _ _ (by norm_num [nearOne, zpow_neg])
        (by norm_num [nearOne, zpow_neg]))]
    norm_num [nearOne, zpow_neg]
  have hA : (tally asciiLower emptyJob (some { exampleResume with skills := some ["Go"] })
      none).factors = 0 := by decide
  have hB : (tally asciiLower emptyJob none none).factors = 0 := by decide
  refine ⟨by norm_num [nearOne], by norm_num [nearOne], hd, hA, by decide, ?_, hB, by decide,
    ?_⟩
  · unfold calculateMatchPercentage
    have hl : (userSkills (some { exampleResume with skills := some ["Go"] }) none).length > 0 :=
      by decide
    simp only [hA, hl, and_self, if_true]
    rw [nearOne_skills_fallback]
    norm_num [Math.floor]
  · unfold calculateMatchPercentage
    have hl : ¬ (userSkills none none).length > 0 := by decide
    simp only [hB, hl, and_false, if_false, if_true]
    rw [nearOne_plain_fallback]
    norm_num [Math.floor]

/-- C3 (amended): when no factor is applicable (`factors = 0`), for every value of the random
source in `[0,1)` the result is an integer from 60 to 80, both included, if the user has a skill
and from 50 to 80, both included, if the user has none; it is below 80 whenever the random source
is at most `1 - 2^-50`. No factor is applicable means that no factor has its inputs present on
both sides, and the user's skills are `resume.skills` if non-empty, else `preferences.skills`. -/
theorem C3_fallback_range (lower : String → String) (random : ℚ) (h0 : 0 ≤ random)
    (h1 : random < 1) (job : Job) (resume : Option Resume) (preferences : Option Preferences)
    (hf : (tally lower job resume preferences).factors = 0) :
    (userSkills resume preferences ≠ [] →
        60 ≤ calculateMatchPercentage lower random job resume preferences ∧
          calculateMatchPercentage lower random job resume preferences ≤ 80) ∧
      (userSkills resume preferences = [] →
        50 ≤ calculateMatchPercentage lower random job resume preferences ∧
          calculateMatchPercentage lower random job resume preferences ≤ 80) ∧
      (random ≤ 1 - 1 / 2 ^ 50 →
        calculateMatchPercentage lower random job resume preferences < 80) ∧
      applicableFactors job resume preferences = 0 ∧
      userSkills resume preferences = skillSource resume preferences := by
  have hfa : applicableFactors job resume preferences = 0 := by
    rw [tally_eq] at hf
    exact hf
  refine ⟨?_, ?_, ?_, hfa, userSkills_eq resume preferences⟩
  · intro hs
    have hl : (userSkills resume preferences).length > 0 := List.length_pos.mpr hs
    unfold calculateMatchPercentage
    simp only [hf, hl, and_self, if_true]
    have h := fallback_bounds random h0 h1 20 60 (by norm_num) (by norm_num) (by norm_num)
    norm_num at h
    exact h
  · intro hs
    unfold calculateMatchPercentage
    simp only [hf, hs, List.length_nil, gt_iff_lt, lt_self_iff_false, and_false, if_false,
      if_true]
    have h := fallback_bounds random h0 h1 30 50 (by norm_num) (by norm_num) (by norm_num)
    norm_num at h
    exact h
  · intro hr
    unfold calculateMatchPercentage
    simp only [hf, true_and]
    split_ifs with hl
    · have h := fallback_below_top random h0 hr 20 60 (by norm_num) (by norm_num) (by norm_num)
      norm_num at h
      exact h
    · have h := fallback_below_top random h0 hr 30 50 (by norm_num) (by norm_num) (by norm_num)
      norm_num at h
      exact h

/-- C3 (amended) at the empty record with no preferences and a resume with one skill. -/
theorem C3_fallback_range_witness :
    (0 : ℚ) ≤ 1 / 2 ∧ (1 / 2 : ℚ) < 1 ∧
      (tally asciiLower emptyJob (some { exampleResume with skills := some ["Go"] })
        none).factors = 0 ∧
      userSkills (some { exampleResume with skills := some ["Go"] }) none ≠ [] ∧
      60 ≤ calculateMatchPercentage asciiLower (1 / 2) emptyJob
        (some { exampleResume with skills := some ["Go"] }) none ∧
      calculateMatchPercentage asciiLower (1 / 2) emptyJob
        (some { exampleResume with skills := some ["Go"] }) none ≤ 80 :=
  ⟨by norm_num, by norm_num, by decide, by decide,
    (C3_fallback_range asciiLower (1 / 2) (by norm_num) (by norm_num) emptyJob
      (some { exampleResume with skills := some ["Go"] }) none (by decide)).1 (by decide)⟩

/-! ## State container: how each call changes the Metrics entry -/

/-- Calling callbacks changes the traces `calls` and `logged` and nothing else. -/
theorem foldl_tryListener (e : Event) (hs : List Handler) (s : State) :
    hs.foldl (tryListener e) s =
      { s with
        calls := s.calls ++ hs.map fun h => (h.id, e)
        logged := s.logged ++ (hs.filter fun h => h.raises e).map fun _ => e.name } := by
  induction hs generalizing s with
  | nil => simp
  | cons h rest ih =>
    rw [List.foldl_cons, ih]
    by_cases hr : h.raises e = true
    · simp [tryListener, callListener, hr]
    · simp [tryListener, callListener, hr]

/-- What `notify` changes: the three traces. -/
theorem notify_eq (e : Event) (s : State) :
    notify e s =
      { s with
        dispatched := s.dispatched ++ [e]
        calls := s.calls ++ (listenersFor e.name s).map fun h => (h.id, e)
        logged := s.logged ++
          ((listenersFor e.name s).filter fun h => h.raises e).map fun _ => e.name } := by
  unfold notify
  rw [foldl_tryListener]

@[simp] theorem notify_user (e : Event) (s : State) :
    (notify e s).user = s.user := by rw [notify_eq]

@[simp] theorem notify_resume (e : Event) (s : State) :
    (notify e s).resume = s.resume := by rw [notify_eq]

@[simp] theorem notify_preferences (e : Event) (s : State) :
    (notify e s).preferences = s.preferences := by rw [notify_eq]

@[simp] theorem notify_analysis (e : Event) (s : State) :
    (notify e s).analysis = s.analysis := by rw [notify_eq]

@[simp] theorem notify_metrics (e : Event) (s : State) :
    (notify e s).metrics = s.metrics := by rw [notify_eq]

@[simp] theorem notify_jobs (e : Event) (s : State) :
    (notify e s).jobs = s.jobs := by rw [notify_eq]

@[simp] theorem notify_listeners (e : Event) (s : State) :
    (notify e s).listeners = s.listeners := by rw [notify_eq]

@[simp] theorem notify_dispatched (e : Event) (s : State) :
    (notify e s).dispatched = s.dispatched ++ [e] := by rw [notify_eq]

@[simp] theorem setUser_metrics (u : Profile) (s : State) : (setUser u s).metrics = s.metrics := by
  simp [setUser]

@[simp] theorem setUser_jobs (u : Profile) (s : State) : (setUser u s).jobs = s.jobs := by
  simp [setUser]

@[simp] theorem updateUser_metrics (u : Profile) (s : State) :
    (updateUser u s).metrics = s.metrics := by
  simp [updateUser, setUser]

@[simp] theorem updateUser_jobs (u : Profile) (s : State) : (updateUser u s).jobs = s.jobs := by
  simp [updateUser, setUser]

@[simp] theorem setPreferences_metrics (p : Preferences) (s : State) :
    (setPreferences p s).metrics = s.metrics := by
  simp [setPreferences]

@[simp] theorem setPreferences_jobs (p : Preferences) (s : State) :
    (setPreferences p s).jobs = s.jobs := by
  simp [setPreferences]

@[simp] theorem updatePreferences_metrics (p : Preferences) (s : State) :
    (updatePreferences p s).metrics = s.metrics := by
  simp [updatePreferences, setPreferences]

@[simp] theorem updatePreferences_jobs (p : Preferences) (s : State) :
    (updatePreferences p s).jobs = s.jobs := by
  simp [updatePreferences, setPreferences]

@[simp] theorem setMetrics_metrics (m : Metrics) (s : State) :
    (setMetrics m s).metrics = some m := by
  simp [setMetrics]

@[simp] theorem setMetrics_jobs (m : Metrics) (s : State) : (setMetrics m s).jobs = s.jobs := by
  simp [setMetrics]

theorem init_metrics_of_some (now : String) (s : State) (m : Metrics) (hm : s.metrics = some m) :
    (init now s).metrics = some m := by
  have h1 : ∀ (d : Metrics) (s' : State), s'.metrics = some m →
      (if (getMetrics s').isNone then setMetrics d s' else s').metrics = some m := by
    intro d s' h
    simp [getMetrics, h]
  unfold init
  simp only []
  apply h1
  split_ifs <;> simp [hm]

theorem init_metrics_of_none (now : String) (s : State) (hm : s.metrics = none) :
    (init now s).metrics = some
      { lastAnalysisDate := none, totalAnalyses := 0, averageATSScore := 0, jobsFound := 0,
        resumeUploaded := false } := by
  have h1 : ∀ (d : Metrics) (s' : State), s'.metrics = none →
      (if (getMetrics s').isNone then setMetrics d s' else s').metrics = some d := by
    intro d s' h
    simp [getMetrics, h]
  unfold init
  simp only []
  apply h1
  split_ifs <;> simp [hm]

theorem init_jobs (now : String) (s : State) : (init now s).jobs = s.jobs := by
  unfold init
  simp only []
  split_ifs <;> simp

theorem setResume_of_metrics (resume : Resume) (s : State) (m : Metrics) (hm : s.metrics = some m) :
    setResume resume s = Outcome.ok (setMetrics { m with resumeUploaded := true }
      (notify (Event.resumeUpdated resume) { s with resume := some resume })) := by
  simp [setResume, getMetrics, hm]

theorem setAnalysis_of_metrics (now : String) (analysis : Analysis) (s : State) (m : Metrics)
    (hm : s.metrics = some m) :
    setAnalysis now analysis s = Outcome.ok (setMetrics (analysisMetrics now analysis m)
      (notify (Event.analysisUpdated analysis) { s with analysis := some analysis })) := by
  simp [setAnalysis, getMetrics, hm]

theorem setJobs_of_metrics (jobs : List Job) (s : State) (m : Metrics) (hm : s.metrics = some m) :
    setJobs jobs s = Outcome.ok (setMetrics { m with jobsFound := jobs.length }
      (notify (Event.jobsUpdated jobs) { s with jobs := some jobs })) := by
  simp [setJobs, getMetrics, hm]

theorem analysisMetrics_total (now : String) (analysis : Analysis) (m : Metrics) :
    (analysisMetrics now analysis m).totalAnalyses = m.totalAnalyses + 1 := by
  unfold analysisMetrics
  split_ifs <;> rfl

theorem analysisMetrics_resumeUploaded (now : String) (analysis : Analysis) (m : Metrics) :
    (analysisMetrics now analysis m).resumeUploaded = m.resumeUploaded := by
  unfold analysisMetrics
  split_ifs <;> rfl

theorem hydrateSkills_metrics (data : Payload) (s : State) :
    (hydrateSkills data s).state.metrics = s.metrics := by
  unfold hydrateSkills
  cases getPreferences s <;> cases data.skills <;>
    simp [Outcome.raise, Outcome.ok]

/-- Effect of `hydrate` on a Metrics entry that is set. -/
theorem hydrate_metrics (now : String) (data : Option Payload) (s : State) (m : Metrics)
    (hm : s.metrics = some m) :
    ∃ m', (hydrate now data s).state.metrics = some m' ∧
      m'.totalAnalyses = m.totalAnalyses + (if (Op.hydrate now data).writesAnalysis then 1 else 0) ∧
      m'.resumeUploaded = (m.resumeUploaded || (Op.hydrate now data).writesResume) := by
  rcases data with _ | d
  · exact ⟨m, by simp [hydrate, Outcome.ok, hm], by simp [Op.writesAnalysis],
      by simp [Op.writesResume]⟩
  · by_cases hs : d.atsScore.isSome = true
    · refine ⟨analysisMetrics now (analysisData d) { m with resumeUploaded := true }, ?_,
        by simp [Op.writesAnalysis, hs, analysisMetrics_total],
        by simp [Op.writesResume, hs, analysisMetrics_resumeUploaded]⟩
      simp only [hydrate, hs, or_true, if_true, setResume_of_metrics _ s m hm, Outcome.andThen,
        Outcome.ok]
      rw [setAnalysis_of_metrics now _ _ { m with resumeUploaded := true } (by simp)]
      simp only [Outcome.ok, hydrateSkills_metrics]
      simp
    · by_cases hr : truthyStr d.resumeName = true
      · exact ⟨{ m with resumeUploaded := true },
          by simp [hydrate, hs, hr, setResume_of_metrics _ s m hm, Outcome.andThen, Outcome.ok],
          by simp [Op.writesAnalysis, hs], by simp [Op.writesResume, hr]⟩
      · exact ⟨m, by simp [hydrate, hs, hr, Outcome.andThen, Outcome.ok, hm],
          by simp [Op.writesAnalysis, hs], by simp [Op.writesResume, hs, hr]⟩

/-- Effect of one call other than `clearAll` on a Metrics entry that is set: it stays set,
`totalAnalyses` grows by one exactly on an Analysis write, and `resumeUploaded` becomes true exactly
on a Resume write. -/
theorem apply_metrics (op : Op) (hop : op ≠ Op.clearAll) (s : State) (m : Metrics)
    (hm : s.metrics = some m) :
    ∃ m', (op.apply s).state.metrics = some m' ∧
      m'.totalAnalyses = m.totalAnalyses + (if op.writesAnalysis then 1 else 0) ∧
      m'.resumeUploaded = (m.resumeUploaded || op.writesResume) := by
  cases op with
  | clearAll => exact absurd rfl hop
  | init now =>
    exact ⟨m, by simp [Op.apply, Outcome.ok, init_metrics_of_some now s m hm],
      by simp [Op.writesAnalysis], by simp [Op.writesResume]⟩
  | setUser user =>
    exact ⟨m, by simp [Op.apply, Outcome.ok, hm],
      by simp [Op.writesAnalysis], by simp [Op.writesResume]⟩
  | updateUser updates =>
    exact ⟨m, by simp [Op.apply, Outcome.ok, hm],
      by simp [Op.writesAnalysis], by simp [Op.writesResume]⟩
  | setPreferences p =>
    exact ⟨m, by simp [Op.apply, Outcome.ok, hm],
      by simp [Op.writesAnalysis], by simp [Op.writesResume]⟩
  | updatePreferences p =>
    exact ⟨m, by simp [Op.apply, Outcome.ok, hm],
      by simp [Op.writesAnalysis], by simp [Op.writesResume]⟩
  | setResume r =>
    exact ⟨{ m with resumeUploaded := true },
      by simp [Op.apply, setResume_of_metrics r s m hm, Outcome.ok],
      by simp [Op.writesAnalysis], by simp [Op.writesResume]⟩
  | setAnalysis now a =>
    exact ⟨analysisMetrics now a m,
      by simp [Op.apply, setAnalysis_of_metrics now a s m hm, Outcome.ok],
      by simp [Op.writesAnalysis, analysisMetrics_total],
      by simp [Op.writesResume, analysisMetrics_resumeUploaded]⟩
  | setJobs jobs =>
    exact ⟨{ m with jobsFound := jobs.length },
      by simp [Op.apply, setJobs_of_metrics jobs s m hm, Outcome.ok],
      by simp [Op.writesAnalysis], by simp [Op.writesResume]⟩
  | addJob job =>
    by_cases hf : (getJobs s).any (sameJob job) = true
    · exact ⟨m, by simp [Op.apply, addJob, hf, Outcome.ok, hm],
        by simp [Op.writesAnalysis], by simp [Op.writesResume]⟩
    · exact ⟨{ m with jobsFound := (getJobs s ++ [job]).length },
        by simp [Op.apply, addJob, hf, setJobs_of_metrics _ s m hm, Outcome.ok],
        by simp [Op.writesAnalysis], by simp [Op.writesResume]⟩
  | hydrate now data => exact hydrate_metrics now data s m hm

/-- Effect of a sequence of calls without `clearAll` on a Metrics entry that is set. -/
theorem run_metrics (ops : List Op) (hops : ∀ op ∈ ops, op ≠ Op.clearAll) (s : State)
    (m : Metrics) (hm : s.metrics = some m) :
    ∃ m', (run ops s).metrics = some m' ∧
      m'.totalAnalyses = m.totalAnalyses + ops.countP Op.writesAnalysis ∧
      m'.resumeUploaded = (m.resumeUploaded || ops.any Op.writesResume) := by
  induction ops generalizing s m with
  | nil => exact ⟨m, by simpa [run] using hm, by simp, by simp⟩
  | cons op rest ih =>
    obtain ⟨m1, h1, ht1, hr1⟩ :=
      apply_metrics op (hops op (List.mem_cons_self _ _)) s m hm
    obtain ⟨m2, h2, ht2, hr2⟩ :=
      ih (fun o ho => hops o (List.mem_cons_of_mem _ ho)) (op.apply s).state m1 h1
    refine ⟨m2, by simpa [run] using h2, ?_, ?_⟩
    · rw [ht2, ht1, List.countP_cons]
      split_ifs <;> omega
    · rw [hr2, hr1, List.any_cons, Bool.or_assoc]

/-! ## State container: the stated properties -/

theorem init_empty_metrics (now : String) :
    (init now State.empty).metrics = some
      { lastAnalysisDate := none, totalAnalyses := 0, averageATSScore := 0, jobsFound := 0,
        resumeUploaded := false } :=
  init_metrics_of_none now State.empty rfl

theorem sameJob_self (job : Job) : sameJob job job = true := by
  simp [sameJob]

theorem addJob_of_found (job : Job) (s : State) (h : (getJobs s).any (sameJob job) = true) :
    addJob job s = Outcome.ok s := by
  simp [addJob, h]

theorem addJob_of_not_found (job : Job) (s : State) (h : (getJobs s).any (sameJob job) = false) :
    addJob job s = setJobs (getJobs s ++ [job]) s := by
  simp [addJob, h]

/-- After `setJobs(jobs)`, raised or not, `getJobs()` returns `jobs`. -/
theorem setJobs_getJobs (jobs : List Job) (s : State) :
    getJobs (setJobs jobs s).state = jobs := by
  unfold setJobs
  simp only []
  cases h : getMetrics (notify (Event.jobsUpdated jobs) { s with jobs := some jobs }) <;>
    simp [Outcome.raise, Outcome.ok, getJobs]

/-- C4, as stated, fails once `clearAll` has removed the Metrics entry. -/
theorem C4_after_clearAll :
    getJobs (run [Op.clearAll, Op.setJobs [emptyJob]] (init "t" State.empty)) = [emptyJob] ∧
      getMetrics (run [Op.clearAll, Op.setJobs [emptyJob]] (init "t" State.empty)) = none ∧
      (getMetrics (run [Op.clearAll, Op.setJobs [emptyJob]] (init "t" State.empty))).map
          Metrics.jobsFound
        ≠ some (getJobs (run [Op.clearAll, Op.setJobs [emptyJob]]
            (init "t" State.empty))).length := by
  refine ⟨by decide, by decide, by decide⟩

/-- C4 (amended): for every sequence of container calls after `init` that does not include
`clearAll`, immediately after a Records write (`setJobs`, or an `addJob` that appends)
`metrics.jobsFound` is the length of the sequence `getJobs` returns; adding the same record twice
to a freshly initialised store leaves `jobsFound` at 1. -/
theorem C4_jobsFound_tracks_records (ops : List Op) (hops : ∀ op ∈ ops, op ≠ Op.clearAll)
    (now : String) (s0 : State) :
    (∀ jobs : List Job,
        (getMetrics (setJobs jobs (run ops (init now s0))).state).map Metrics.jobsFound
          = some (getJobs (setJobs jobs (run ops (init now s0))).state).length) ∧
      (∀ job : Job, (getJobs (run ops (init now s0))).any (sameJob job) = false →
        getJobs (addJob job (run ops (init now s0))).state
            = getJobs (run ops (init now s0)) ++ [job] ∧
          (getMetrics (addJob job (run ops (init now s0))).state).map Metrics.jobsFound
            = some (getJobs (addJob job (run ops (init now s0))).state).length) ∧
      (∀ job : Job,
        (getMetrics (run [Op.addJob job, Op.addJob job] (init now State.empty))).map
            Metrics.jobsFound = some 1 ∧
          (getJobs (run [Op.addJob job, Op.addJob job] (init now State.empty))).length = 1) := by
  obtain ⟨m0, hm0⟩ : ∃ m0, (init now s0).metrics = some m0 := by
    cases h : s0.metrics with
    | none => exact ⟨_, init_metrics_of_none now s0 h⟩
    | some m => exact ⟨m, init_metrics_of_some now s0 m h⟩
  obtain ⟨m, hm, -, -⟩ := run_metrics ops hops (init now s0) m0 hm0
  have key : ∀ (jobs : List Job) (s : State) (m : Metrics), s.metrics = some m →
      (getMetrics (setJobs jobs s).state).map Metrics.jobsFound
        = some (getJobs (setJobs jobs s).state).length := by
    intro jobs s m hm
    rw [setJobs_getJobs, setJobs_of_metrics jobs s m hm]
    simp [Outcome.ok, getMetrics]
  refine ⟨fun jobs => key jobs _ m hm, ?_, ?_⟩
  · intro job hj
    rw [addJob_of_not_found job _ hj]
    exact ⟨setJobs_getJobs _ _, key _ _ m hm⟩
  · intro job
    have e1 : getJobs (init now State.empty) = [] := by
      simp [getJobs, init_jobs, State.empty]
    have h1 : (Op.addJob job).apply (init now State.empty)
        = setJobs [job] (init now State.empty) := by
      have := addJob_of_not_found job (init now State.empty) (by rw [e1]; rfl)
      rw [e1] at this
      simpa [Op.apply] using this
    have e2 : getJobs (setJobs [job] (init now State.empty)).state = [job] := setJobs_getJobs _ _
    have h2 : (Op.addJob job).apply (setJobs [job] (init now State.empty)).state
        = Outcome.ok (setJobs [job] (init now State.empty)).state := by
      have := addJob_of_found job (setJobs [job] (init now State.empty)).state
        (by rw [e2]; simp [sameJob_self])
      simpa [Op.apply] using this
    have hrun : run [Op.addJob job, Op.addJob job] (init now State.empty)
        = (setJobs [job] (init now State.empty)).state := by
      simp [run, h1, h2, Outcome.ok]
    rw [hrun, e2]
    have := key [job] (init now State.empty) _ (init_empty_metrics now)
    rw [e2] at this
    exact ⟨this, rfl⟩

/-- C4 (amended) after a profile update and a first record. -/
theorem C4_jobsFound_tracks_records_witness :
    (∀ op ∈ [Op.updateUser exampleProfile,
        Op.addJob (record none "A" "X")], op ≠ Op.clearAll) ∧
      (getMetrics (setJobs [record none "B" "Y", record none "C" "Z"]
          (run [Op.updateUser exampleProfile,
            Op.addJob (record none "A" "X")] (init "t" State.empty))).state).map Metrics.jobsFound
        = some (getJobs (setJobs [record none "B" "Y", record none "C" "Z"]
          (run [Op.updateUser exampleProfile,
            Op.addJob (record none "A" "X")] (init "t" State.empty))).state).length :=
  ⟨by decide,
    (C4_jobsFound_tracks_records _ (by decide) "t" State.empty).1
      [record none "B" "Y", record none "C" "Z"]⟩

/-- C7: after `init` on a store without a Metrics entry (never initialised, or cleared),
`metrics.totalAnalyses` is the number of Analysis writes made since (each `setAnalysis` call, the
one made by a `hydrate` with a defined score included, with or without a score), and no other
call except `clearAll` changes it. -/
theorem C7_totalAnalyses_counts_writes (ops : List Op) (hops : ∀ op ∈ ops, op ≠ Op.clearAll)
    (now : String) :
    (∀ s0 : State, getMetrics s0 = none →
        (getMetrics (run ops (init now s0))).map Metrics.totalAnalyses
          = some (ops.countP Op.writesAnalysis)) ∧
      (∀ (s : State) (m : Metrics), getMetrics s = some m →
        (getMetrics (run ops s)).map Metrics.totalAnalyses
          = some (m.totalAnalyses + ops.countP Op.writesAnalysis)) ∧
      (∀ (s : State) (m : Metrics) (op : Op), getMetrics s = some m → op ≠ Op.clearAll →
        (getMetrics (op.apply s).state).map Metrics.totalAnalyses
          = some (if op.writesAnalysis then m.totalAnalyses + 1 else m.totalAnalyses)) := by
  have gen : ∀ (s : State) (m : Metrics), getMetrics s = some m →
      (getMetrics (run ops s)).map Metrics.totalAnalyses
        = some (m.totalAnalyses + ops.countP Op.writesAnalysis) := by
    intro s m hm
    obtain ⟨m', h', ht, -⟩ := run_metrics ops hops s m hm
    simp [getMetrics, h', ht]
  refine ⟨?_, gen, ?_⟩
  · intro s0 h0
    have := gen (init now s0) _ (init_metrics_of_none now s0 h0)
    simpa using this
  · intro s m op hm hop
    obtain ⟨m', h', ht, -⟩ := apply_metrics op hop s m hm
    simp only [getMetrics, h', Option.map_some', ht]
    split_ifs <;> rfl

/-- C7 on a hydration with a score, a write without a score and a profile write. -/
theorem C7_totalAnalyses_counts_writes_witness :
    (∀ op ∈ [Op.hydrate "t" (some examplePayload),
        Op.setAnalysis "u" (scoreOnly none),
        Op.setUser exampleProfile],
        op ≠ Op.clearAll) ∧
      (getMetrics (run [Op.hydrate "t" (some examplePayload),
        Op.setAnalysis "u" (scoreOnly none),
        Op.setUser exampleProfile]
        (init "t" State.empty))).map Metrics.totalAnalyses = some 2 :=
  ⟨by decide, (C7_totalAnalyses_counts_writes _ (by decide) "t").1 State.empty rfl⟩

/-- C8: `metrics.resumeUploaded` is false after `init` on a store without a Metrics entry and
before any Resume write, is true after a Resume write, and once true stays true under every
sequence of calls without `clearAll`. -/
theorem C8_resumeUploaded_sticky (ops : List Op) (hops : ∀ op ∈ ops, op ≠ Op.clearAll)
    (now : String) :
    (∀ s0 : State, getMetrics s0 = none →
        (getMetrics (init now s0)).map Metrics.resumeUploaded = some false) ∧
      (∀ s0 : State, getMetrics s0 = none → ops.any Op.writesResume = false →
        (getMetrics (run ops (init now s0))).map Metrics.resumeUploaded = some false) ∧
      (∀ (s : State) (m : Metrics) (op : Op), getMetrics s = some m → op.writesResume = true →
        (getMetrics (op.apply s).state).map Metrics.resumeUploaded = some true) ∧
      (∀ (s : State) (m : Metrics), getMetrics s = some m → m.resumeUploaded = true →
        (getMetrics (run ops s)).map Metrics.resumeUploaded = some true) := by
  refine ⟨fun s0 h0 => by simp [getMetrics, init_metrics_of_none now s0 h0], ?_, ?_, ?_⟩
  · intro s0 h0 hno
    obtain ⟨m', h', -, hr⟩ := run_metrics ops hops (init now s0) _ (init_metrics_of_none now s0 h0)
    simp [getMetrics, h', hr, hno]
  · intro s m op hm hw
    have hop : op ≠ Op.clearAll := by
      rintro rfl
      simp [Op.writesResume] at hw
    obtain ⟨m', h', -, hr⟩ := apply_metrics op hop s m hm
    simp [getMetrics, h', hr, hw]
  · intro s m hm ht
    obtain ⟨m', h', -, hr⟩ := run_metrics ops hops s m hm
    simp [getMetrics, h', hr, ht]

/-- C8 on a Resume write followed by calls of every other kind. -/
theorem C8_resumeUploaded_sticky_witness :
    (∀ op ∈ [Op.setAnalysis "u" (scoreOnly (some 70)), Op.setJobs [], Op.init "v",
        Op.addJob (record none "A" "X"),
        Op.updatePreferences { examplePreferences with skills := some ["Go"] }],
        op ≠ Op.clearAll) ∧
      (getMetrics (run [Op.setAnalysis "u" (scoreOnly (some 70)), Op.setJobs [], Op.init "v",
        Op.addJob (record none "A" "X"),
        Op.updatePreferences { examplePreferences with skills := some ["Go"] }]
        (setResume exampleResume (init "t" State.empty)).state)).map Metrics.resumeUploaded
        = some true :=
  ⟨by decide,
    (C8_resumeUploaded_sticky _ (by decide) "t").2.2.2
      (setResume exampleResume (init "t" State.empty)).state
      { lastAnalysisDate := none, totalAnalyses := 0, averageATSScore := 0, jobsFound := 0,
        resumeUploaded := true }
      (by simp [setResume_of_metrics _ _ _ (init_empty_metrics "t"), Outcome.ok, getMetrics]) rfl⟩

theorem run_cons (op : Op) (ops : List Op) (s : State) :
    run (op :: ops) s = run ops (op.apply s).state := rfl

/-- The Metrics entry after a sequence of Analysis writes is the fold of `analysisMetrics`. -/
theorem run_writeScores_metrics (now : String) (scores : List (Option Int)) (s : State)
    (m : Metrics) (hm : s.metrics = some m) :
    (run (writeScores now scores) s).metrics
      = some (scores.foldl (fun m score => analysisMetrics now (scoreOnly score) m) m) := by
  induction scores generalizing s m with
  | nil => simpa [writeScores, run] using hm
  | cons x rest ih =>
    have hx : ((Op.setAnalysis now (scoreOnly x)).apply s).state.metrics
        = some (analysisMetrics now (scoreOnly x) m) := by
      simp [Op.apply, setAnalysis_of_metrics now _ s m hm, Outcome.ok]
    have := ih _ _ hx
    simpa [writeScores, run_cons] using this

/-- Over writes with non-zero scores, `averageATSScore * totalAnalyses` grows by the sum of the
scores and `totalAnalyses` by their number. -/
theorem fold_nonzero_scores (now : String) (scores : List Int) (hnz : ∀ x ∈ scores, x ≠ 0)
    (m : Metrics) :
    ((scores.map some).foldl (fun m score => analysisMetrics now (scoreOnly score) m)
        m).totalAnalyses = m.totalAnalyses + scores.length ∧
      ((scores.map some).foldl (fun m score => analysisMetrics now (scoreOnly score) m)
          m).averageATSScore *
        (((scores.map some).foldl (fun m score => analysisMetrics now (scoreOnly score) m)
          m).totalAnalyses : ℚ)
        = m.averageATSScore * (m.totalAnalyses : ℚ) + (scores.sum : ℚ) := by
  induction scores generalizing m with
  | nil => simp
  | cons x rest ih =>
    have hx : x ≠ 0 := hnz x (List.mem_cons_self _ _)
    obtain ⟨h1, h2⟩ := ih (fun y hy => hnz y (List.mem_cons_of_mem _ hy))
      (analysisMetrics now (scoreOnly (some x)) m)
    have e1 : (analysisMetrics now (scoreOnly (some x)) m).totalAnalyses
        = m.totalAnalyses + 1 := analysisMetrics_total _ _ _
    have e2 : (analysisMetrics now (scoreOnly (some x)) m).averageATSScore
        = (m.averageATSScore * (m.totalAnalyses : ℚ) + (x : ℚ)) / ((m.totalAnalyses : ℚ) + 1) := by
      simp [analysisMetrics, scoreOnly, truthyNum, hx]
    have hpos : ((m.totalAnalyses : ℚ) + 1) ≠ 0 := by positivity
    simp only [List.map_cons, List.foldl_cons, List.length_cons, List.sum_cons]
    refine ⟨by rw [h1, e1]; omega, ?_⟩
    rw [h2, e1, e2]
    push_cast
    field_simp
    ring

/-- When every write carries a score other than zero, the average is the mean of the scores and
`totalAnalyses` their number. -/
theorem average_of_nonzero_scores (now : String) (scores : List Int) (hne : scores ≠ [])
    (hnz : ∀ x ∈ scores, x ≠ 0) :
    (getMetrics (run (writeScores now (scores.map some)) (init now State.empty))).map
        Metrics.averageATSScore = some (mean scores) ∧
      (getMetrics (run (writeScores now (scores.map some)) (init now State.empty))).map
        Metrics.totalAnalyses = some scores.length := by
  have hrun := run_writeScores_metrics now (scores.map some) _ _ (init_empty_metrics now)
  obtain ⟨h1, h2⟩ := fold_nonzero_scores now scores hnz
    { lastAnalysisDate := none, totalAnalyses := 0, averageATSScore := 0, jobsFound := 0,
      resumeUploaded := false }
  simp only [getMetrics, hrun, Option.map_some', Option.some.injEq]
  refine ⟨?_, by rw [h1]; simp⟩
  have hlen : (scores.length : ℚ) ≠ 0 := by
    have : 0 < scores.length := List.length_pos.mpr hne
    positivity
  rw [h1] at h2
  simp only [zero_add, Nat.cast_zero, mul_zero] at h2
  unfold mean
  rw [eq_div_iff hlen]
  exact h2

/-- C5 at the failing input: scores 80, then a write without a score, then 100 leave the average
at 260/3, while the mean of the two scores supplied is 90. -/
theorem C5_scoreless_write_skews_average :
    (getMetrics (run (writeScores "t" [some 80, none, some 100]) (init "t" State.empty))).map
        Metrics.averageATSScore = some (260 / 3) ∧
      mean [80, 100] = 90 := by
  constructor
  · simp only [getMetrics, run_writeScores_metrics "t" _ _ _ (init_empty_metrics "t")]
    simp [analysisMetrics, scoreOnly, truthyNum]
    norm_num
  · norm_num [mean]

/-- C6 at the failing input: the scores 100 and 0 leave the average at 100 with two analyses
counted, while their mean is 50; the scores 80, 60, 100 give average 80 and three analyses. -/
theorem C6_zero_score_not_averaged :
    (getMetrics (run (writeScores "t" [some 100, some 0]) (init "t" State.empty))).map
        Metrics.averageATSScore = some 100 ∧
      (getMetrics (run (writeScores "t" [some 100, some 0]) (init "t" State.empty))).map
        Metrics.totalAnalyses = some 2 ∧
      mean [100, 0] = 50 ∧
      (getMetrics (run (writeScores "t" [some 80, some 60, some 100])
        (init "t" State.empty))).map Metrics.averageATSScore = some 80 ∧
      (getMetrics (run (writeScores "t" [some 80, some 60, some 100])
        (init "t" State.empty))).map Metrics.totalAnalyses = some 3 := by
  refine ⟨?_, ?_, by norm_num [mean], ?_, ?_⟩
  · simp only [getMetrics, run_writeScores_metrics "t" _ _ _ (init_empty_metrics "t")]
    simp [analysisMetrics, scoreOnly, truthyNum]
  · simp only [getMetrics, run_writeScores_metrics "t" _ _ _ (init_empty_metrics "t")]
    simp [analysisMetrics, scoreOnly, truthyNum]
  · simp only [getMetrics, run_writeScores_metrics "t" _ _ _ (init_empty_metrics "t")]
    simp [analysisMetrics, scoreOnly, truthyNum]
    norm_num
  · simp only [getMetrics, run_writeScores_metrics "t" _ _ _ (init_empty_metrics "t")]
    simp [analysisMetrics, scoreOnly, truthyNum]

/-- The first event `setJobs(jobs)` dispatches is `jobsUpdated` with `jobs`. -/
theorem setJobs_dispatched (jobs : List Job) (s : State) :
    ∃ rest : List Event,
      (setJobs jobs s).state.dispatched = s.dispatched ++ Event.jobsUpdated jobs :: rest := by
  unfold setJobs
  simp only []
  cases h : getMetrics (notify (Event.jobsUpdated jobs) { s with jobs := some jobs }) with
  | none => exact ⟨[], by simp [Outcome.raise]⟩
  | some m =>
    exact ⟨[Event.metricsUpdated { m with jobsFound := jobs.length }],
      by simp [Outcome.ok, setMetrics]⟩

/-- The test of `addJob` as a proposition. -/
theorem sameJob_iff (job j : Job) :
    sameJob job j = true ↔
      (∃ i : String, i ≠ "" ∧ job.id = some i ∧ j.id = some i) ∨
        (j.title = job.title ∧ j.company = job.company) := by
  obtain ⟨jid, jt, jc, jl, jr, js, je⟩ := job
  obtain ⟨kid, kt, kc, kl, kr, ks, ke⟩ := j
  rcases jid with _ | i
  · simp [sameJob, truthyStr]
  · by_cases hi : i = ""
    · subst hi
      simp only [sameJob, truthyStr, Bool.or_eq_true, Bool.and_eq_true, decide_eq_true_eq]
      constructor
      · rintro (⟨h, -⟩ | h)
        · simp at h
        · exact Or.inr h
      · rintro (⟨i', hi', h1, -⟩ | h)
        · exact absurd (Option.some.inj h1).symm hi'
        · exact Or.inr h
    · simp only [sameJob, truthyStr, Bool.or_eq_true, Bool.and_eq_true, decide_eq_true_eq]
      constructor
      · rintro (⟨-, h⟩ | h)
        · exact Or.inl ⟨i, hi, rfl, h⟩
        · exact Or.inr h
      · rintro (⟨i', -, h1, h2⟩ | h)
        · exact Or.inl ⟨by simpa using hi, by rw [h2, h1]⟩
        · exact Or.inr h

/-- C9, as stated, fails for two records with different non-empty ids and the same title and
company: the stated key tells them apart, and `addJob` does not append the second. -/
theorem C9_distinct_ids_same_title_company :
    sameRecordSpec (record (some "2") "A" "X") (record (some "1") "A" "X") = false ∧
      getJobs (addJob (record (some "2") "A" "X")
          (run [Op.addJob (record (some "1") "A" "X")] (init "t" State.empty))).state
        = [record (some "1") "A" "X"] := by
  constructor <;> decide

/-- C9 (amended): `addJob(record)` treats a stored record `j` as the same record as the new one if
and only if their ids match, both being non-empty, or both title and company are exactly equal,
whatever the ids are; the record is appended exactly when no stored record is the same in this
sense, and Records is unchanged otherwise. -/
theorem C9_addJob_dedup_key (job : Job) (s : State) :
    (∀ j : Job, sameJob job j = true ↔
        (∃ i : String, i ≠ "" ∧ job.id = some i ∧ j.id = some i) ∨
          (j.title = job.title ∧ j.company = job.company)) ∧
      (getJobs (addJob job s).state = getJobs s ++ [job] ↔
        ∀ j ∈ getJobs s, sameJob job j = false) ∧
      (getJobs (addJob job s).state ≠ getJobs s ++ [job] →
        getJobs (addJob job s).state = getJobs s) := by
  have hne : getJobs s ≠ getJobs s ++ [job] := by
    intro h
    have := congrArg List.length h
    simp at this
  refine ⟨fun j => sameJob_iff job j, ?_, ?_⟩
  · constructor
    · intro h j hj
      by_contra hc
      have hf : (getJobs s).any (sameJob job) = true :=
        List.any_eq_true.mpr ⟨j, hj, by simpa using hc⟩
      rw [addJob_of_found job s hf] at h
      exact hne h
    · intro h
      have hf : (getJobs s).any (sameJob job) = false := by
        rw [Bool.eq_false_iff]
        intro hc
        obtain ⟨j, hj, hs⟩ := List.any_eq_true.mp hc
        rw [h j hj] at hs
        exact Bool.false_ne_true hs
      rw [addJob_of_not_found job s hf]
      exact setJobs_getJobs _ _
  · intro h
    cases hf : (getJobs s).any (sameJob job) with
    | true => rw [addJob_of_found job s hf]; rfl
    | false =>
      rw [addJob_of_not_found job s hf] at h
      exact absurd (setJobs_getJobs _ _) h

/-- C10: `addJob(record)` is the reference: if some stored record has the id of `record`, that id
being non-empty, or has the same title and the same company, whatever the ids, the container is
left as it was and nothing is dispatched; otherwise Records becomes the previous sequence with
`record` at the end and `setJobs` dispatches for Records. Adding `{id:'1', title:'A',
company:'X'}` and then `{title:'A', company:'X'}` leaves one record. -/
theorem C10_addJob_reference (job : Job) (s : State) :
    ((∃ j ∈ getJobs s, (∃ i : String, i ≠ "" ∧ job.id = some i ∧ j.id = some i) ∨
          (j.title = job.title ∧ j.company = job.company)) →
        addJob job s = Outcome.ok s) ∧
      ((¬ ∃ j ∈ getJobs s, (∃ i : String, i ≠ "" ∧ job.id = some i ∧ j.id = some i) ∨
          (j.title = job.title ∧ j.company = job.company)) →
        addJob job s = setJobs (getJobs s ++ [job]) s ∧
          getJobs (addJob job s).state = getJobs s ++ [job] ∧
          ∃ rest : List Event, (addJob job s).state.dispatched
            = s.dispatched ++ Event.jobsUpdated (getJobs s ++ [job]) :: rest) ∧
      getJobs (run [Op.addJob (record (some "1") "A" "X"), Op.addJob (record none "A" "X")]
        (init "t" State.empty)) = [record (some "1") "A" "X"] := by
  refine ⟨?_, ?_, by decide⟩
  · rintro ⟨j, hj, h⟩
    exact addJob_of_found job s (List.any_eq_true.mpr ⟨j, hj, (sameJob_iff job j).mpr h⟩)
  · intro h
    have hf : (getJobs s).any (sameJob job) = false := by
      rw [Bool.eq_false_iff]
      intro hc
      obtain ⟨j, hj, hs⟩ := List.any_eq_true.mp hc
      exact h ⟨j, hj, (sameJob_iff job j).mp hs⟩
    rw [addJob_of_not_found job s hf]
    exact ⟨rfl, setJobs_getJobs _ _, setJobs_dispatched _ _⟩

/-! ## Updates, hydration, the event bus, failing writes and stored text -/

/-- C11, as stated, fails on an absent collection: the update is stored alone, and the default is
not merged in. -/
theorem C11_absent_collection_no_default :
    getPreferences (updatePreferences (skillsOnly ["Go"]) State.empty)
        = some (skillsOnly ["Go"]) ∧
      updatePreferencesReturn (skillsOnly ["Go"]) State.empty = skillsOnly ["Go"] ∧
      skillsOnly ["Go"] ≠ mergePreferences (some defaultPreferences) (skillsOnly ["Go"]) ∧
      getUser (updateUser exampleProfile State.empty) = some exampleProfile := by
  refine ⟨by decide, by decide, by decide, by decide⟩

/-- C11 (amended): `updateUser(partial)` and `updatePreferences(partial)` store and return the
shallow merge of `partial` over the current value of the collection (every key of `partial`
overwrites, every other key keeps its current value); when the collection is absent the value
stored and returned is `partial` alone. -/
theorem C11_update_shallow_merge (s : State) (userUpdates : Profile) (updates : Preferences) :
    getUser (updateUser userUpdates s) = some (updateUserReturn userUpdates s) ∧
      getPreferences (updatePreferences updates s) = some (updatePreferencesReturn updates s) ∧
      (∀ u : Profile, getUser s = some u →
        (updateUserReturn userUpdates s).name
            = (if userUpdates.name.isSome then userUpdates.name else u.name) ∧
          (updateUserReturn userUpdates s).email
            = (if userUpdates.email.isSome then userUpdates.email else u.email) ∧
          (updateUserReturn userUpdates s).createdAt
            = (if userUpdates.createdAt.isSome then userUpdates.createdAt else u.createdAt)) ∧
      (∀ p : Preferences, getPreferences s = some p →
        (updatePreferencesReturn updates s).jobTitle
            = (if updates.jobTitle.isSome then updates.jobTitle else p.jobTitle) ∧
          (updatePreferencesReturn updates s).location
            = (if updates.location.isSome then updates.location else p.location) ∧
          (updatePreferencesReturn updates s).remote
            = (if updates.remote.isSome then updates.remote else p.remote) ∧
          (updatePreferencesReturn updates s).salaryRange
            = (if updates.salaryRange.isSome then updates.salaryRange else p.salaryRange) ∧
          (updatePreferencesReturn updates s).experienceLevel
            = (if updates.experienceLevel.isSome then updates.experienceLevel
                else p.experienceLevel) ∧
          (updatePreferencesReturn updates s).industries
            = (if updates.industries.isSome then updates.industries else p.industries) ∧
          (updatePreferencesReturn updates s).skills
            = (if updates.skills.isSome then updates.skills else p.skills)) ∧
      (getUser s = none → updateUserReturn userUpdates s = userUpdates) ∧
      (getPreferences s = none → updatePreferencesReturn updates s = updates) := by
  have orElse_eq : ∀ {α : Type} (a b : Option α),
      (a.orElse fun _ => b) = (if a.isSome then a else b) := by
    intro α a b
    cases a <;> simp
  refine ⟨by simp [updateUser, updateUserReturn, setUser, getUser],
    by simp [updatePreferences, updatePreferencesReturn, setPreferences, getPreferences],
    ?_, ?_, ?_, ?_⟩
  · intro u hu
    simp only [updateUserReturn, hu, mergeProfile, orElse_eq, and_self]
  · intro p hp
    simp only [updatePreferencesReturn, hp, mergePreferences, orElse_eq, and_self]
  · intro hu
    simp only [updateUserReturn, hu, mergeProfile]
  · intro hp
    simp only [updatePreferencesReturn, hp, mergePreferences]

theorem setMetrics_eq (m : Metrics) (s : State) :
    setMetrics m s = notify (Event.metricsUpdated m) { s with metrics := some m } := rfl

@[simp] theorem setMetrics_user (m : Metrics) (s : State) : (setMetrics m s).user = s.user := by
  simp [setMetrics]

@[simp] theorem setMetrics_resume (m : Metrics) (s : State) :
    (setMetrics m s).resume = s.resume := by
  simp [setMetrics]

@[simp] theorem setMetrics_preferences (m : Metrics) (s : State) :
    (setMetrics m s).preferences = s.preferences := by
  simp [setMetrics]

@[simp] theorem setMetrics_analysis (m : Metrics) (s : State) :
    (setMetrics m s).analysis = s.analysis := by
  simp [setMetrics]

/-- C20: on an initialised container `setResume(resume)` changes in Metrics only
`resumeUploaded`, which becomes true; `lastAnalysisDate`, `totalAnalyses`, `averageATSScore` and
`jobsFound` keep their values, and Profile, Preferences, Analysis and Records are unchanged. -/
theorem C20_setResume_frame (resume : Resume) (s : State) (m : Metrics)
    (hm : getMetrics s = some m) :
    (setResume resume s).error = none ∧
      getMetrics (setResume resume s).state = some { m with resumeUploaded := true } ∧
      getResume (setResume resume s).state = some resume ∧
      getUser (setResume resume s).state = getUser s ∧
      getPreferences (setResume resume s).state = getPreferences s ∧
      getAnalysis (setResume resume s).state = getAnalysis s ∧
      getJobs (setResume resume s).state = getJobs s := by
  rw [setResume_of_metrics resume s m hm]
  simp [Outcome.ok, getMetrics, getResume, getUser, getPreferences, getAnalysis, getJobs]

/-- C20 on a freshly initialised store. -/
theorem C20_setResume_frame_witness :
    getMetrics (init "t" State.empty) = some defaultMetrics ∧
      getMetrics (setResume exampleResume (init "t" State.empty)).state
        = some { defaultMetrics with resumeUploaded := true } :=
  ⟨init_empty_metrics "t",
    (C20_setResume_frame exampleResume (init "t" State.empty) defaultMetrics
      (init_empty_metrics "t")).2.1⟩

/-- C19, as stated, fails on a store without a Metrics entry: each of the three setters raises a
`TypeError` and no Metrics is persisted. -/
theorem C19_unset_metrics_raises :
    (setResume exampleResume State.empty).error = some JsError.typeError ∧
      getMetrics (setResume exampleResume State.empty).state = none ∧
      (setAnalysis "t" (scoreOnly (some 75)) (clearAll (init "t" State.empty))).error
        = some JsError.typeError ∧
      (setJobs [emptyJob] (clearAll (init "t" State.empty))).error = some JsError.typeError ∧
      getMetrics (setJobs [emptyJob] (clearAll (init "t" State.empty))).state = none := by
  refine ⟨by decide, by decide, by decide, by decide, by decide⟩

/-- C19 (amended): `setResume`, `setAnalysis` and `setJobs` complete without raising in every
container state in which the Metrics entry is set, and the recomputed Metrics is persisted; when
the Metrics entry is unset (before `init`, or after `clearAll`) each stores its collection,
dispatches its event and then raises a `TypeError`, and Metrics stays unset. -/
theorem C19_setters_need_metrics (s : State) (resume : Resume) (now : String)
    (analysis : Analysis) (jobs : List Job) :
    (∀ m : Metrics, getMetrics s = some m →
        ((setResume resume s).error = none ∧
          getMetrics (setResume resume s).state = some { m with resumeUploaded := true }) ∧
        ((setAnalysis now analysis s).error = none ∧
          getMetrics (setAnalysis now analysis s).state
            = some (analysisMetrics now analysis m)) ∧
        ((setJobs jobs s).error = none ∧
          getMetrics (setJobs jobs s).state = some { m with jobsFound := jobs.length })) ∧
      (getMetrics s = none →
        (setResume resume s
            = Outcome.raise (notify (Event.resumeUpdated resume)
                { s with resume := some resume }) ∧
          getMetrics (setResume resume s).state = none) ∧
        (setAnalysis now analysis s
            = Outcome.raise (notify (Event.analysisUpdated analysis)
                { s with analysis := some analysis }) ∧
          getMetrics (setAnalysis now analysis s).state = none) ∧
        (setJobs jobs s
            = Outcome.raise (notify (Event.jobsUpdated jobs) { s with jobs := some jobs }) ∧
          getMetrics (setJobs jobs s).state = none)) := by
  constructor
  · intro m hm
    rw [setResume_of_metrics resume s m hm, setAnalysis_of_metrics now analysis s m hm,
      setJobs_of_metrics jobs s m hm]
    simp [Outcome.ok, getMetrics]
  · intro hm
    have h : s.metrics = none := hm
    simp [setResume, setAnalysis, setJobs, getMetrics, h, Outcome.raise]

/-- C18: after `clearAll`, from every prior state, the six persisted entries are deleted and no
event has a subscriber: each getter returns what it returns on a store that was never
initialised, and a later `dispatchEvent` calls no handler. -/
theorem C18_clearAll_resets (s : State) :
    getUser (clearAll s) = getUser State.empty ∧
      getResume (clearAll s) = getResume State.empty ∧
      getPreferences (clearAll s) = getPreferences State.empty ∧
      getAnalysis (clearAll s) = getAnalysis State.empty ∧
      getJobs (clearAll s) = getJobs State.empty ∧
      getMetrics (clearAll s) = getMetrics State.empty ∧
      ((clearAll s).user = none ∧ (clearAll s).resume = none ∧ (clearAll s).preferences = none ∧
        (clearAll s).analysis = none ∧ (clearAll s).jobs = none ∧ (clearAll s).metrics = none) ∧
      (∀ event : String, listenersFor event (clearAll s) = []) ∧
      (∀ e : Event, (notify e (clearAll s)).calls = s.calls) ∧
      (∀ e : Event, (dispatchEvent e (clearAll s)).state.calls = s.calls) := by
  have hn : ∀ e : Event, (notify e (clearAll s)).calls = s.calls := by
    intro e
    rw [notify_eq]
    simp [listenersFor, clearAll]
  refine ⟨rfl, rfl, rfl, rfl, rfl, rfl, ⟨rfl, rfl, rfl, rfl, rfl, rfl⟩, fun _ => rfl, hn, ?_⟩
  intro e
  unfold dispatchEvent
  split_ifs
  · rfl
  · exact hn e

/-- When every write is accepted, the setters over a fallible store are the setters. -/
theorem Fallible.setters_of_accepting (s : State) (user : Profile) (preferences : Preferences)
    (metrics : Metrics) (resume : Resume) (now : String) (analysis : Analysis)
    (jobs : List Job) :
    Fallible.setUser (fun _ => true) user s = Outcome.ok (ResumeAnalyzer.setUser user s) ∧
      Fallible.setPreferences (fun _ => true) preferences s
        = Outcome.ok (ResumeAnalyzer.setPreferences preferences s) ∧
      Fallible.setMetrics (fun _ => true) metrics s
        = Outcome.ok (ResumeAnalyzer.setMetrics metrics s) ∧
      Fallible.setResume (fun _ => true) resume s = ResumeAnalyzer.setResume resume s ∧
      Fallible.setAnalysis (fun _ => true) now analysis s
        = ResumeAnalyzer.setAnalysis now analysis s ∧
      Fallible.setJobs (fun _ => true) jobs s = ResumeAnalyzer.setJobs jobs s := by
  refine ⟨rfl, rfl, rfl, ?_, ?_, ?_⟩
  · simp only [Fallible.setResume, ResumeAnalyzer.setResume, if_true]
    cases getMetrics (notify (Event.resumeUpdated resume) { s with resume := some resume })
      <;> rfl
  · simp only [Fallible.setAnalysis, ResumeAnalyzer.setAnalysis, if_true]
    cases getMetrics (notify (Event.analysisUpdated analysis)
      { s with analysis := some analysis }) <;> rfl
  · simp only [Fallible.setJobs, ResumeAnalyzer.setJobs, if_true]
    cases getMetrics (notify (Event.jobsUpdated jobs) { s with jobs := some jobs })
      <;> rfl

/-- C16: for each of `setUser`, `setResume`, `setPreferences`, `setAnalysis` and `setJobs`, if
the write of its collection is refused, the error reaches the caller, no event is dispatched, and
Metrics and every other collection are as before the call. -/
theorem C16_refused_write_aborts (accepts : Key → Bool) (s : State) (user : Profile)
    (resume : Resume) (preferences : Preferences) (now : String) (analysis : Analysis)
    (jobs : List Job) :
    (accepts Key.USER = false →
        Fallible.setUser accepts user s = ⟨s, some JsError.quotaExceeded⟩) ∧
      (accepts Key.RESUME = false →
        Fallible.setResume accepts resume s = ⟨s, some JsError.quotaExceeded⟩) ∧
      (accepts Key.PREFERENCES = false →
        Fallible.setPreferences accepts preferences s = ⟨s, some JsError.quotaExceeded⟩) ∧
      (accepts Key.ANALYSIS = false →
        Fallible.setAnalysis accepts now analysis s = ⟨s, some JsError.quotaExceeded⟩) ∧
      (accepts Key.JOBS = false →
        Fallible.setJobs accepts jobs s = ⟨s, some JsError.quotaExceeded⟩) := by
  refine ⟨fun h => ?_, fun h => ?_, fun h => ?_, fun h => ?_, fun h => ?_⟩
  · simp [Fallible.setUser, h]
  · simp [Fallible.setResume, h]
  · simp [Fallible.setPreferences, h]
  · simp [Fallible.setAnalysis, h]
  · simp [Fallible.setJobs, h]

/-- C16 on an initialised store that refuses the write of the resume: nothing is dispatched and
the Metrics entry is the one `init` wrote. -/
theorem C16_refused_write_aborts_witness :
    (fun k => decide (k ≠ Key.RESUME)) Key.RESUME = false ∧
      (Fallible.setResume (fun k => decide (k ≠ Key.RESUME)) exampleResume
          (init "t" State.empty)).error = some JsError.quotaExceeded ∧
      (Fallible.setResume (fun k => decide (k ≠ Key.RESUME)) exampleResume
          (init "t" State.empty)).state.dispatched = (init "t" State.empty).dispatched ∧
      getMetrics (Fallible.setResume (fun k => decide (k ≠ Key.RESUME)) exampleResume
          (init "t" State.empty)).state = some defaultMetrics := by
  have h := (C16_refused_write_aborts (fun k => decide (k ≠ Key.RESUME)) (init "t" State.empty)
    exampleProfile exampleResume examplePreferences "t" (scoreOnly none) []).2.1 (by decide)
  refine ⟨by decide, ?_, ?_, ?_⟩
  · rw [h]
  · rw [h]
  · rw [h]; exact init_empty_metrics "t"

/-- C17, as stated, fails on text that does not parse: the getter raises the `SyntaxError`,
where an unset entry, and the empty text, read as absent. -/
theorem C17_corrupt_entry_raises :
    Text.getUser rejectAll { TextStore.empty with rba_user := some "not json" }
        = Except.error JsError.syntaxError ∧
      Text.getUser rejectAll TextStore.empty = Except.ok none ∧
      Text.getMetrics rejectAll { TextStore.empty with rba_metrics := some "not json" }
        = Except.error JsError.syntaxError ∧
      Text.getMetrics rejectAll TextStore.empty = Except.ok none ∧
      Text.getUser rejectAll { TextStore.empty with rba_user := some "" } = Except.ok none := by
  refine ⟨?_, rfl, ?_, rfl, ?_⟩
  · simp [Text.getUser, parseOr, rejectAll, TextStore.empty]
  · simp [Text.getMetrics, parseOr, rejectAll, TextStore.empty]
  · simp [Text.getUser, parseOr, TextStore.empty]

/-- C17 (amended): for each of the six getters, an entry that is unset or holds the empty text
reads as the absent value (`null`, and the empty array for `getJobs`) without an error, and an
entry whose text is not empty and fails to parse makes the getter raise the `SyntaxError` of
`JSON.parse`. -/
theorem C17_getters_on_text (store : TextStore) (parseUser : String → Option Profile)
    (parseResume : String → Option Resume) (parsePreferences : String → Option Preferences)
    (parseAnalysis : String → Option Analysis) (parseJobs : String → Option (List Job))
    (parseMetrics : String → Option Metrics) :
    ((store.rba_user = none → Text.getUser parseUser store = Except.ok none) ∧
        (store.rba_resume = none → Text.getResume parseResume store = Except.ok none) ∧
        (store.rba_preferences = none →
          Text.getPreferences parsePreferences store = Except.ok none) ∧
        (store.rba_analysis = none → Text.getAnalysis parseAnalysis store = Except.ok none) ∧
        (store.rba_jobs = none → Text.getJobs parseJobs store = Except.ok []) ∧
        (store.rba_metrics = none → Text.getMetrics parseMetrics store = Except.ok none)) ∧
      ((store.rba_user = some "" → Text.getUser parseUser store = Except.ok none) ∧
        (store.rba_resume = some "" → Text.getResume parseResume store = Except.ok none) ∧
        (store.rba_preferences = some "" →
          Text.getPreferences parsePreferences store = Except.ok none) ∧
        (store.rba_analysis = some "" → Text.getAnalysis parseAnalysis store = Except.ok none) ∧
        (store.rba_jobs = some "" → Text.getJobs parseJobs store = Except.ok []) ∧
        (store.rba_metrics = some "" → Text.getMetrics parseMetrics store = Except.ok none)) ∧
      (∀ text : String, text ≠ "" →
        (store.rba_user = some text → parseUser text = none →
          Text.getUser parseUser store = Except.error JsError.syntaxError) ∧
        (store.rba_resume = some text → parseResume text = none →
          Text.getResume parseResume store = Except.error JsError.syntaxError) ∧
        (store.rba_preferences = some text → parsePreferences text = none →
          Text.getPreferences parsePreferences store = Except.error JsError.syntaxError) ∧
        (store.rba_analysis = some text → parseAnalysis text = none →
          Text.getAnalysis parseAnalysis store = Except.error JsError.syntaxError) ∧
        (store.rba_jobs = some text → parseJobs text = none →
          Text.getJobs parseJobs store = Except.error JsError.syntaxError) ∧
        (store.rba_metrics = some text → parseMetrics text = none →
          Text.getMetrics parseMetrics store = Except.error JsError.syntaxError)) := by
  refine ⟨?_, ?_, ?_⟩
  · refine ⟨fun h => ?_, fun h => ?_, fun h => ?_, fun h => ?_, fun h => ?_, fun h => ?_⟩
    · simp [Text.getUser, parseOr, h]
    · simp [Text.getResume, parseOr, h]
    · simp [Text.getPreferences, parseOr, h]
    · simp [Text.getAnalysis, parseOr, h]
    · simp [Text.getJobs, parseOr, h]
    · simp [Text.getMetrics, parseOr, h]
  · refine ⟨fun h => ?_, fun h => ?_, fun h => ?_, fun h => ?_, fun h => ?_, fun h => ?_⟩
    · simp [Text.getUser, parseOr, h]
    · simp [Text.getResume, parseOr, h]
    · simp [Text.getPreferences, parseOr, h]
    · simp [Text.getAnalysis, parseOr, h]
    · simp [Text.getJobs, parseOr, h]
    · simp [Text.getMetrics, parseOr, h]
  · intro text ht
    refine ⟨fun h hp => ?_, fun h hp => ?_, fun h hp => ?_, fun h hp => ?_, fun h hp => ?_,
      fun h hp => ?_⟩
    · simp [Text.getUser, parseOr, h, hp, ht]
    · simp [Text.getResume, parseOr, h, hp, ht]
    · simp [Text.getPreferences, parseOr, h, hp, ht]
    · simp [Text.getAnalysis, parseOr, h, hp, ht]
    · simp [Text.getJobs, parseOr, h, hp, ht]
    · simp [Text.getMetrics, parseOr, h, hp, ht]

/-- Under the six names the container passes, `dispatchEvent` completes and is `notify`. -/
theorem dispatchEvent_container (s : State) (user : Profile) (resume : Resume)
    (preferences : Preferences) (analysis : Analysis) (jobs : List Job) (metrics : Metrics) :
    dispatchEvent (Event.userUpdated user) s = Outcome.ok (notify (Event.userUpdated user) s) ∧
      dispatchEvent (Event.resumeUpdated resume) s
        = Outcome.ok (notify (Event.resumeUpdated resume) s) ∧
      dispatchEvent (Event.preferencesUpdated preferences) s
        = Outcome.ok (notify (Event.preferencesUpdated preferences) s) ∧
      dispatchEvent (Event.analysisUpdated analysis) s
        = Outcome.ok (notify (Event.analysisUpdated analysis) s) ∧
      dispatchEvent (Event.jobsUpdated jobs) s = Outcome.ok (notify (Event.jobsUpdated jobs) s) ∧
      dispatchEvent (Event.metricsUpdated metrics) s
        = Outcome.ok (notify (Event.metricsUpdated metrics) s) := by
  refine ⟨?_, ?_, ?_, ?_, ?_, ?_⟩ <;> simp [dispatchEvent, Event.name, inheritedNames]

/-- C15, as stated, fails for an event name that `listeners` inherits from `Object.prototype`:
`dispatchEvent('constructor', data)` raises a `TypeError`, and so does `on('constructor', h)`,
which subscribes nothing. -/
theorem C15_inherited_name_raises :
    (dispatchEvent (Event.other "constructor" "x") State.empty).error
        = some JsError.typeError ∧
      (onEvent "constructor" (quiet 1) State.empty).error = some JsError.typeError ∧
      listenersFor "constructor" (onEvent "constructor" (quiet 1) State.empty).state = [] ∧
      (dispatchEvent (Event.other "toString" "x") subscribed).error
        = some JsError.typeError := by
  refine ⟨by decide, by decide, rfl, by decide⟩

/-- C15 (amended): under every event name that is not inherited from `Object.prototype`,
`dispatchEvent(event, data)` calls every handler subscribed to `event` once per subscription, in
subscription order, each with the same data; a handler that throws is caught (and logged), the
later handlers are still called, and `dispatchEvent` does not raise. Under an inherited name
`on` and `dispatchEvent` raise a `TypeError`, and no handler is subscribed or called. -/
theorem C15_dispatchEvent_calls_all (e : Event) (s : State) (he : e.name ∉ inheritedNames) :
    (dispatchEvent e s).error = none ∧
      (dispatchEvent e s).state.calls
        = s.calls ++ (listenersFor e.name s).map (fun h => (h.id, e)) ∧
      (dispatchEvent e s).state.logged
        = s.logged ++ ((listenersFor e.name s).filter fun h => h.raises e).map (fun _ => e.name) ∧
      (∀ h : Handler, (onEvent e.name h s).error = none ∧
        listenersFor e.name (onEvent e.name h s).state = listenersFor e.name s ++ [h]) ∧
      (∀ (other : String) (h : Handler), other ≠ e.name →
        listenersFor e.name (onEvent other h s).state = listenersFor e.name s) ∧
      (∀ (e' : Event) (h : Handler), e'.name ∈ inheritedNames →
        dispatchEvent e' s = Outcome.raise s ∧ onEvent e'.name h s = Outcome.raise s) ∧
      (dispatchEvent (Event.jobsUpdated []) subscribed).state.calls
        = [(1, Event.jobsUpdated []), (2, Event.jobsUpdated []), (3, Event.jobsUpdated [])] ∧
      (dispatchEvent (Event.jobsUpdated []) subscribed).state.logged = ["jobsUpdated"] ∧
      (dispatchEvent (Event.jobsUpdated []) subscribed).error = none := by
  have hd : dispatchEvent e s = Outcome.ok (notify e s) := by
    unfold dispatchEvent
    rw [if_neg he]
  refine ⟨by rw [hd]; rfl, by rw [hd, Outcome.ok, notify_eq],
    by rw [hd, Outcome.ok, notify_eq], ?_, ?_, ?_, by decide, by decide, by decide⟩
  · intro h
    simp [listenersFor, onEvent, he, Outcome.ok]
  · intro other h hne
    by_cases ho : other ∈ inheritedNames
    · simp [onEvent, ho, Outcome.raise]
    · simp [listenersFor, onEvent, ho, Outcome.ok, hne]
  · intro e' h hin
    simp [dispatchEvent, onEvent, hin]

/-- C15 (amended) on three subscribers to `jobsUpdated`, the second of which throws. -/
theorem C15_dispatchEvent_calls_all_witness :
    (Event.jobsUpdated []).name ∉ inheritedNames ∧
      (dispatchEvent (Event.jobsUpdated []) subscribed).error = none ∧
      (dispatchEvent (Event.jobsUpdated []) subscribed).state.calls
        = subscribed.calls ++ (listenersFor (Event.jobsUpdated []).name subscribed).map
            (fun h => (h.id, Event.jobsUpdated [])) :=
  ⟨by decide,
    (C15_dispatchEvent_calls_all (Event.jobsUpdated []) subscribed (by decide)).1,
    (C15_dispatchEvent_calls_all (Event.jobsUpdated []) subscribed (by decide)).2.1⟩

/-- C14 at the failing input: on an initialised store `hydrate({atsScore: 75})` writes Resume
and Analysis and then raises a `TypeError`. -/
theorem C14_score_without_skills_raises :
    (hydrate "t" (some scorePayload) (init "t" State.empty)).error = some JsError.typeError ∧
      getResume (hydrate "t" (some scorePayload) (init "t" State.empty)).state
        = some (resumeData scorePayload) ∧
      getAnalysis (hydrate "t" (some scorePayload) (init "t" State.empty)).state
        = some (analysisData scorePayload) ∧
      (hydrate "t" (some examplePayload) (init "t" State.empty)).error = none := by
  refine ⟨by decide, by decide, by decide, by decide⟩

/-- The loop of `new Set(xs)`: the set built so far, extended by the elements of `xs`. -/
theorem newSet_append (xs ys : List String) :
    newSet (xs ++ ys)
      = ys.foldl (fun acc x => if x ∈ acc then acc else acc ++ [x]) (newSet xs) := by
  unfold newSet
  rw [List.foldl_append]

theorem addAll_nodup (xs acc : List String) (h : acc.Nodup) :
    (xs.foldl (fun acc x => if x ∈ acc then acc else acc ++ [x]) acc).Nodup := by
  induction xs generalizing acc with
  | nil => simpa using h
  | cons x rest ih =>
    rw [List.foldl_cons]
    apply ih
    split_ifs with hx
    · exact h
    · rw [List.nodup_append]
      refine ⟨h, List.nodup_singleton x, ?_⟩
      intro a ha hb
      rw [List.mem_singleton] at hb
      exact hx (hb ▸ ha)

theorem mem_addAll (xs acc : List String) (a : String) :
    a ∈ xs.foldl (fun acc x => if x ∈ acc then acc else acc ++ [x]) acc ↔ a ∈ acc ∨ a ∈ xs := by
  induction xs generalizing acc with
  | nil => simp
  | cons x rest ih =>
    rw [List.foldl_cons, ih]
    split_ifs with hx
    · constructor
      · rintro (h | h)
        · exact Or.inl h
        · exact Or.inr (List.mem_cons_of_mem _ h)
      · rintro (h | h)
        · exact Or.inl h
        · rcases List.mem_cons.mp h with h | h
          · exact Or.inl (h ▸ hx)
          · exact Or.inr h
    · simp only [List.mem_append, List.mem_singleton, List.mem_cons]
      tauto

theorem addAll_of_subset (xs acc : List String) (h : ∀ a ∈ xs, a ∈ acc) :
    xs.foldl (fun acc x => if x ∈ acc then acc else acc ++ [x]) acc = acc := by
  induction xs generalizing acc with
  | nil => rfl
  | cons x rest ih =>
    rw [List.foldl_cons, if_pos (h x (List.mem_cons_self _ _))]
    exact ih acc fun a ha => h a (List.mem_cons_of_mem _ ha)

theorem addAll_of_nodup (xs acc : List String) (h : (acc ++ xs).Nodup) :
    xs.foldl (fun acc x => if x ∈ acc then acc else acc ++ [x]) acc = acc ++ xs := by
  induction xs generalizing acc with
  | nil => simp
  | cons x rest ih =>
    have hx : x ∉ acc := by
      intro hx
      rw [List.nodup_append] at h
      exact h.2.2 hx (List.mem_cons_self _ _)
    rw [List.foldl_cons, if_neg hx, ih (acc ++ [x]) (by simpa using h)]
    simp

theorem addAll_prefix (xs acc : List String) :
    acc <+: xs.foldl (fun acc x => if x ∈ acc then acc else acc ++ [x]) acc := by
  induction xs generalizing acc with
  | nil => exact List.prefix_refl _
  | cons x rest ih =>
    rw [List.foldl_cons]
    split_ifs with hx
    · exact ih acc
    · exact (List.prefix_append acc [x]).trans (ih (acc ++ [x]))

theorem newSet_nodup (xs : List String) : (newSet xs).Nodup :=
  addAll_nodup xs [] List.nodup_nil

theorem mem_newSet (xs : List String) (a : String) : a ∈ newSet xs ↔ a ∈ xs := by
  unfold newSet
  rw [mem_addAll]
  simp

/-- Merging the same skills a second time changes nothing. -/
theorem newSet_merge_again (prev skills : List String) :
    newSet (newSet (prev ++ skills) ++ skills) = newSet (prev ++ skills) := by
  rw [newSet_append (newSet (prev ++ skills)) skills]
  have h1 : newSet (newSet (prev ++ skills)) = newSet (prev ++ skills) := by
    have := addAll_of_nodup (newSet (prev ++ skills)) [] (by simpa using newSet_nodup _)
    simpa [newSet] using this
  rw [h1]
  apply addAll_of_subset
  intro a ha
  rw [mem_newSet]
  exact List.mem_append_right _ ha

@[simp] theorem updatePreferences_preferences (u : Preferences) (s : State) :
    (updatePreferences u s).preferences = some (mergePreferences s.preferences u) := by
  simp [updatePreferences, setPreferences, getPreferences]

@[simp] theorem updatePreferences_resume (u : Preferences) (s : State) :
    (updatePreferences u s).resume = s.resume := by
  simp [updatePreferences, setPreferences]

@[simp] theorem updatePreferences_analysis (u : Preferences) (s : State) :
    (updatePreferences u s).analysis = s.analysis := by
  simp [updatePreferences, setPreferences]

/-- The state `hydrate` leaves, on an initialised container, for a payload with a defined score
and a skills sequence: it completes, Resume and Analysis are the two records built from the
payload, and the skills are merged into Preferences. -/
theorem hydrate_with_skills (now : String) (d : Payload) (hs : d.atsScore.isSome = true)
    (skills : List String) (hk : d.skills = some skills) (s : State) (p : Preferences)
    (m : Metrics) (hp : getPreferences s = some p) (hm : getMetrics s = some m) :
    (hydrate now (some d) s).error = none ∧
      getResume (hydrate now (some d) s).state = some (resumeData d) ∧
      getAnalysis (hydrate now (some d) s).state = some (analysisData d) ∧
      getPreferences (hydrate now (some d) s).state
        = some { p with skills := some (newSet (p.skills.getD [] ++ skills)) } ∧
      getMetrics (hydrate now (some d) s).state
        = some (analysisMetrics now (analysisData d) { m with resumeUploaded := true }) := by
  have hp' : s.preferences = some p := hp
  simp only [hydrate, hs, or_true, if_true, setResume_of_metrics _ s m hm, Outcome.andThen,
    Outcome.ok]
  rw [setAnalysis_of_metrics now _ _ { m with resumeUploaded := true } (by simp)]
  simp [Outcome.ok, hydrateSkills, getPreferences, getResume, getAnalysis, getMetrics, hp', hk,
    mergePreferences]

/-- C12: for every payload with a defined score and a skills sequence, on an initialised
container, `hydrate(p)` followed by `hydrate(p)` leaves Resume, Analysis and Preferences as one
`hydrate(p)` leaves them, and `Preferences.skills` holds each skill of `p` exactly once. -/
theorem C12_hydrate_twice (now later : String) (data : Payload)
    (hs : data.atsScore.isSome = true) (skills : List String) (hk : data.skills = some skills)
    (s : State) (p : Preferences) (m : Metrics) (hp : getPreferences s = some p)
    (hm : getMetrics s = some m) :
    getResume (hydrateTwice now later data s) = getResume (hydrateOnce now data s) ∧
      getAnalysis (hydrateTwice now later data s) = getAnalysis (hydrateOnce now data s) ∧
      getPreferences (hydrateTwice now later data s)
        = getPreferences (hydrateOnce now data s) ∧
      (∀ skill ∈ skills, (preferenceSkills (hydrateTwice now later data s)).count skill = 1) ∧
      (hydrate now (some data) s).error = none ∧
      (hydrate later (some data) (hydrateOnce now data s)).error = none := by
  obtain ⟨e1, r1, a1, p1, m1⟩ := hydrate_with_skills now data hs skills hk s p m hp hm
  obtain ⟨e2, r2, a2, p2, -⟩ := hydrate_with_skills later data hs skills hk
    (hydrate now (some data) s).state _ _ p1 m1
  have hsame : newSet (newSet (p.skills.getD [] ++ skills) ++ skills)
      = newSet (p.skills.getD [] ++ skills) := newSet_merge_again _ _
  simp only [Option.getD_some] at p2
  rw [hsame] at p2
  refine ⟨by rw [hydrateTwice, hydrateOnce, r2, r1], by rw [hydrateTwice, hydrateOnce, a2, a1],
    by rw [hydrateTwice, hydrateOnce, p2, p1], ?_, e1, e2⟩
  intro skill hskill
  have hpref : preferenceSkills (hydrateTwice now later data s)
      = newSet (p.skills.getD [] ++ skills) := by
    simp [preferenceSkills, hydrateTwice, p2]
  rw [hpref]
  exact List.count_eq_one_of_mem (newSet_nodup _)
    ((mem_newSet _ _).mpr (List.mem_append_right _ hskill))

/-- C12 on the hydration example: after two hydrations Preferences.skills is `["Go"]`. -/
theorem C12_hydrate_twice_witness :
    examplePayload.atsScore.isSome = true ∧ examplePayload.skills = some ["Go"] ∧
      getPreferences (init "t" State.empty) = some defaultPreferences ∧
      getMetrics (init "t" State.empty) = some defaultMetrics ∧
      getPreferences (hydrateTwice "t" "u" examplePayload (init "t" State.empty))
        = getPreferences (hydrateOnce "t" examplePayload (init "t" State.empty)) ∧
      preferenceSkills (hydrateTwice "t" "u" examplePayload (init "t" State.empty)) = ["Go"] :=
  ⟨rfl, rfl, by decide, init_empty_metrics "t",
    (C12_hydrate_twice "t" "u" examplePayload rfl ["Go"] rfl (init "t" State.empty)
      defaultPreferences defaultMetrics (by decide) (init_empty_metrics "t")).2.2.1,
    by decide⟩

/-- C13: for every payload with a defined score and a skills sequence, after `hydrate` on an
initialised container `Preferences.skills` has no duplicate, its elements are those of the
previous `Preferences.skills` and of the payload's skills, the previous skills come first in
first-occurrence order, and every other Preferences field is unchanged. -/
theorem C13_hydrate_skill_union (now : String) (data : Payload)
    (hs : data.atsScore.isSome = true) (skills : List String) (hk : data.skills = some skills)
    (s : State) (p : Preferences) (m : Metrics) (hp : getPreferences s = some p)
    (hm : getMetrics s = some m) :
    getPreferences (hydrateOnce now data s)
        = some { p with skills := some (preferenceSkills (hydrateOnce now data s)) } ∧
      (preferenceSkills (hydrateOnce now data s)).Nodup ∧
      (∀ skill : String, skill ∈ preferenceSkills (hydrateOnce now data s) ↔
        skill ∈ preferenceSkills s ∨ skill ∈ skills) ∧
      newSet (preferenceSkills s) <+: preferenceSkills (hydrateOnce now data s) ∧
      ((preferenceSkills s).Nodup →
        preferenceSkills s <+: preferenceSkills (hydrateOnce now data s)) ∧
      preferenceSkills (hydrateOnce now data s) = newSet (preferenceSkills s ++ skills) := by
  obtain ⟨-, -, -, p1, -⟩ := hydrate_with_skills now data hs skills hk s p m hp hm
  have hprev : preferenceSkills s = p.skills.getD [] := by
    simp [preferenceSkills, hp]
  have hnew : preferenceSkills (hydrateOnce now data s)
      = newSet (p.skills.getD [] ++ skills) := by
    simp [preferenceSkills, hydrateOnce, p1]
  have hpre : newSet (p.skills.getD []) <+: newSet (p.skills.getD [] ++ skills) := by
    rw [newSet_append]
    exact addAll_prefix _ _
  rw [hnew, hprev]
  refine ⟨by rw [hydrateOnce, p1], newSet_nodup _, ?_, hpre, ?_, rfl⟩
  · intro skill
    rw [mem_newSet, List.mem_append]
  · intro hnd
    have : newSet (p.skills.getD []) = p.skills.getD [] := by
      have := addAll_of_nodup (p.skills.getD []) [] (by simpa using hnd)
      simpa [newSet] using this
    rw [this] at hpre
    exact hpre

/-- C13 on the hydration example, with one skill stored before. -/
theorem C13_hydrate_skill_union_witness :
    examplePayload.atsScore.isSome = true ∧ examplePayload.skills = some ["Go"] ∧
      preferenceSkills (hydrateOnce "t" examplePayload
          (updatePreferences (skillsOnly ["SQL"]) (init "t" State.empty)))
        = newSet (preferenceSkills (updatePreferences (skillsOnly ["SQL"])
            (init "t" State.empty)) ++ ["Go"]) ∧
      preferenceSkills (hydrateOnce "t" examplePayload
          (updatePreferences (skillsOnly ["SQL"]) (init "t" State.empty))) = ["SQL", "Go"] :=
  ⟨rfl, rfl,
    (C13_hydrate_skill_union "t" examplePayload rfl ["Go"] rfl
      (updatePreferences (skillsOnly ["SQL"]) (init "t" State.empty))
      { defaultPreferences with skills := some ["SQL"] } defaultMetrics (by decide)
      (by simp [getMetrics, init_empty_metrics "t", defaultMetrics])).2.2.2.2.2,
    by decide⟩

/-- On an initialised container `hydrate` completes for an absent payload and for every payload
that has a skills sequence or no score. -/
theorem hydrate_completes (now : String) (data : Option Payload) (s : State) (p : Preferences)
    (m : Metrics) (hp : getPreferences s = some p) (hm : getMetrics s = some m)
    (h : ∀ d, data = some d → d.atsScore.isSome = true → d.skills.isSome = true) :
    (hydrate now data s).error = none := by
  rcases data with _ | d
  · rfl
  · by_cases hs : d.atsScore.isSome = true
    · obtain ⟨skills, hk⟩ := Option.isSome_iff_exists.mp (h d rfl hs)
      exact (hydrate_with_skills now d hs skills hk s p m hp hm).1
    · by_cases hr : truthyStr d.resumeName = true
      · simp [hydrate, hs, hr, setResume_of_metrics _ s m hm, Outcome.andThen, Outcome.ok]
      · simp [hydrate, hs, hr, Outcome.andThen, Outcome.ok]

/-! ## Event traces of the setters, and Records without clashes -/

/-- C21: on an initialised container `setResume`, `setAnalysis` and `setJobs` each complete and
dispatch exactly two events, first the event of their collection with the new value and then
`metricsUpdated` with the recomputed Metrics, which is the value persisted; `setUser`,
`setPreferences` and `setMetrics` each dispatch exactly one event; `setUser` and `setPreferences`
leave the Metrics entry as it was, and `setMetrics` persists its argument with no
recomputation. -/
theorem C21_set_event_trace (s : State) (m : Metrics) (hm : getMetrics s = some m)
    (user : Profile) (resume : Resume) (preferences : Preferences) (now : String)
    (analysis : Analysis) (jobs : List Job) (metrics : Metrics) :
    ((setResume resume s).error = none ∧
        (setResume resume s).state.dispatched
          = s.dispatched ++ [Event.resumeUpdated resume,
              Event.metricsUpdated { m with resumeUploaded := true }] ∧
        getMetrics (setResume resume s).state = some { m with resumeUploaded := true }) ∧
      ((setAnalysis now analysis s).error = none ∧
        (setAnalysis now analysis s).state.dispatched
          = s.dispatched ++ [Event.analysisUpdated analysis,
              Event.metricsUpdated (analysisMetrics now analysis m)] ∧
        getMetrics (setAnalysis now analysis s).state
          = some (analysisMetrics now analysis m)) ∧
      ((setJobs jobs s).error = none ∧
        (setJobs jobs s).state.dispatched
          = s.dispatched ++ [Event.jobsUpdated jobs,
              Event.metricsUpdated { m with jobsFound := jobs.length }] ∧
        getMetrics (setJobs jobs s).state = some { m with jobsFound := jobs.length }) ∧
      ((setUser user s).dispatched = s.dispatched ++ [Event.userUpdated user] ∧
        getMetrics (setUser user s) = getMetrics s) ∧
      ((setPreferences preferences s).dispatched
          = s.dispatched ++ [Event.preferencesUpdated preferences] ∧
        getMetrics (setPreferences preferences s) = getMetrics s) ∧
      ((setMetrics metrics s).dispatched = s.dispatched ++ [Event.metricsUpdated metrics] ∧
        getMetrics (setMetrics metrics s) = some metrics) ∧
      ((Event.resumeUpdated resume).name = "resumeUpdated" ∧
        (Event.analysisUpdated analysis).name = "analysisUpdated" ∧
        (Event.jobsUpdated jobs).name = "jobsUpdated" ∧
        (Event.metricsUpdated metrics).name = "metricsUpdated" ∧
        (Event.userUpdated user).name = "userUpdated" ∧
        (Event.preferencesUpdated preferences).name = "preferencesUpdated") := by
  have hm' : s.metrics = some m := hm
  refine ⟨?_, ?_, ?_, ?_, ?_, ?_, ⟨rfl, rfl, rfl, rfl, rfl, rfl⟩⟩
  · rw [setResume_of_metrics resume s m hm']
    simp [Outcome.ok, setMetrics, getMetrics]
  · rw [setAnalysis_of_metrics now analysis s m hm']
    simp [Outcome.ok, setMetrics, getMetrics]
  · rw [setJobs_of_metrics jobs s m hm']
    simp [Outcome.ok, setMetrics, getMetrics]
  · simp [setUser, getMetrics]
  · simp [setPreferences, getMetrics]
  · simp [setMetrics, getMetrics]

/-- C21 on a freshly initialised store: `setJobs` with one record adds the two events. -/
theorem C21_set_event_trace_witness :
    getMetrics (init "t" State.empty) = some defaultMetrics ∧
      (setJobs [emptyJob] (init "t" State.empty)).state.dispatched
        = (init "t" State.empty).dispatched ++ [Event.jobsUpdated [emptyJob],
            Event.metricsUpdated { defaultMetrics with jobsFound := [emptyJob].length }] :=
  ⟨init_empty_metrics "t",
    (C21_set_event_trace (init "t" State.empty) defaultMetrics (init_empty_metrics "t")
      exampleProfile exampleResume examplePreferences "t" (scoreOnly none) [emptyJob]
      defaultMetrics).2.2.1.2.1⟩

theorem setResume_jobs (resume : Resume) (s : State) :
    (setResume resume s).state.jobs = s.jobs := by
  unfold setResume
  simp only []
  cases getMetrics (notify (Event.resumeUpdated resume) { s with resume := some resume })
    <;> simp [Outcome.raise, Outcome.ok]

theorem setAnalysis_jobs (now : String) (analysis : Analysis) (s : State) :
    (setAnalysis now analysis s).state.jobs = s.jobs := by
  unfold setAnalysis
  simp only []
  cases getMetrics (notify (Event.analysisUpdated analysis)
    { s with analysis := some analysis }) <;> simp [Outcome.raise, Outcome.ok]

theorem hydrateSkills_jobs (data : Payload) (s : State) :
    (hydrateSkills data s).state.jobs = s.jobs := by
  unfold hydrateSkills
  cases getPreferences s <;> cases data.skills <;> simp [Outcome.raise, Outcome.ok]

theorem andThen_jobs (o : Outcome) (f : State → Outcome)
    (hf : ∀ s, (f s).state.jobs = s.jobs) : (o.andThen f).state.jobs = o.state.jobs := by
  unfold Outcome.andThen
  cases o.error with
  | none => exact hf _
  | some _ => rfl

/-- `hydrate` does not write Records. -/
theorem hydrate_jobs (now : String) (data : Option Payload) (s : State) :
    (hydrate now data s).state.jobs = s.jobs := by
  rcases data with _ | d
  · rfl
  · unfold hydrate
    simp only []
    rw [andThen_jobs]
    · split_ifs
      · exact setResume_jobs _ _
      · rfl
    · intro s'
      split_ifs
      · rw [andThen_jobs _ _ (hydrateSkills_jobs d)]
        exact setAnalysis_jobs _ _ _
      · rfl

/-- A stored record that `addJob` does not take for the new one does not clash with it. -/
theorem not_clash_of_sameJob (job j : Job) (h : sameJob job j = false) : ¬ clash j job := by
  intro hc
  have hs : sameJob job j = true := by
    rw [sameJob_iff]
    rcases hc with ht | ⟨id, hid, hj, hjob⟩
    · exact Or.inr ht
    · exact Or.inl ⟨id, hid, hjob, hj⟩
  rw [h] at hs
  exact Bool.false_ne_true hs

/-- A call other than `setJobs` keeps Records free of clashes. -/
theorem apply_keeps_distinct (op : Op) (hop : op.isSetJobs = false) (s : State)
    (h : (getJobs s).Pairwise fun a b => ¬ clash a b) :
    (getJobs (op.apply s).state).Pairwise fun a b => ¬ clash a b := by
  have same : ∀ s' : State, s'.jobs = s.jobs →
      (getJobs s').Pairwise fun a b => ¬ clash a b := by
    intro s' hs
    simpa [getJobs, hs] using h
  cases op with
  | setJobs jobs => simp [Op.isSetJobs] at hop
  | clearAll => simp [Op.apply, Outcome.ok, clearAll, getJobs]
  | init now => exact same _ (by simp [Op.apply, Outcome.ok, init_jobs])
  | hydrate now data => exact same _ (by simp [Op.apply, hydrate_jobs])
  | setUser user => exact same _ (by simp [Op.apply, Outcome.ok])
  | updateUser updates => exact same _ (by simp [Op.apply, Outcome.ok])
  | setResume resume => exact same _ (by simp [Op.apply, setResume_jobs])
  | setPreferences preferences => exact same _ (by simp [Op.apply, Outcome.ok])
  | updatePreferences updates => exact same _ (by simp [Op.apply, Outcome.ok])
  | setAnalysis now analysis => exact same _ (by simp [Op.apply, setAnalysis_jobs])
  | addJob job =>
    cases hf : (getJobs s).any (sameJob job) with
    | true =>
      have : (Op.addJob job).apply s = Outcome.ok s := addJob_of_found job s hf
      rw [this]
      exact h
    | false =>
      have : (Op.addJob job).apply s = setJobs (getJobs s ++ [job]) s :=
        addJob_of_not_found job s hf
      rw [this, setJobs_getJobs, List.pairwise_append]
      refine ⟨h, List.pairwise_singleton _ _, ?_⟩
      intro a ha b hb
      rw [List.mem_singleton] at hb
      subst hb
      apply not_clash_of_sameJob
      by_contra hc
      have : (getJobs s).any (sameJob b) = true :=
        List.any_eq_true.mpr ⟨a, ha, by simpa using hc⟩
      rw [hf] at this
      exact Bool.false_ne_true this

/-- A sequence of calls without `setJobs` keeps Records free of clashes. -/
theorem run_keeps_distinct (ops : List Op) (hops : ∀ op ∈ ops, op.isSetJobs = false)
    (s : State) (h : (getJobs s).Pairwise fun a b => ¬ clash a b) :
    (getJobs (run ops s)).Pairwise fun a b => ¬ clash a b := by
  induction ops generalizing s with
  | nil => exact h
  | cons op rest ih =>
    rw [run_cons]
    exact ih (fun o ho => hops o (List.mem_cons_of_mem _ ho)) _
      (apply_keeps_distinct op (hops op (List.mem_cons_self _ _)) s h)

theorem clash_symm (a b : Job) (h : clash a b) : clash b a := by
  rcases h with ⟨h1, h2⟩ | ⟨id, hid, ha, hb⟩
  · exact Or.inl ⟨h1.symm, h2.symm⟩
  · exact Or.inr ⟨id, hid, hb, ha⟩

/-- C22: starting from an initialised container with empty Records, after every sequence of
calls without `setJobs` (in particular every sequence of `addJob` calls) no two distinct
positions of Records hold records with the same title and the same company, and no two hold the
same non-empty id. -/
theorem C22_records_pairwise_distinct (ops : List Op)
    (hops : ∀ op ∈ ops, op.isSetJobs = false) (now : String) (s0 : State)
    (h0 : getJobs s0 = []) (i j : Nat) (a b : Job) (hij : i ≠ j)
    (ha : (getJobs (run ops (init now s0)))[i]? = some a)
    (hb : (getJobs (run ops (init now s0)))[j]? = some b) :
    ¬ (a.title = b.title ∧ a.company = b.company) ∧
      ¬ ∃ id : String, id ≠ "" ∧ a.id = some id ∧ b.id = some id := by
  have hstart : (getJobs (init now s0)).Pairwise fun a b => ¬ clash a b := by
    have : getJobs (init now s0) = [] := by
      simpa [getJobs, init_jobs] using h0
    rw [this]
    exact List.Pairwise.nil
  have hp := run_keeps_distinct ops hops (init now s0) hstart
  rw [List.pairwise_iff_getElem] at hp
  obtain ⟨hi, hai⟩ := List.getElem?_eq_some_iff.mp ha
  obtain ⟨hj, hbj⟩ := List.getElem?_eq_some_iff.mp hb
  have hn : ¬ clash a b := by
    rcases Nat.lt_or_gt_of_ne hij with hlt | hgt
    · have := hp i j hi hj hlt
      rwa [hai, hbj] at this
    · have := hp j i hj hi hgt
      rw [hai, hbj] at this
      exact fun c => this (clash_symm a b c)
  exact ⟨fun c => hn (Or.inl c), fun c => hn (Or.inr c)⟩

/-- C22 on four `addJob` calls, of which the second repeats the title and company of the first
and the fourth the id of the third: two records are stored, and they do not clash. -/
theorem C22_records_pairwise_distinct_witness :
    (∀ op ∈ [Op.addJob (record (some "1") "A" "X"), Op.addJob (record none "A" "X"),
        Op.addJob (record (some "2") "B" "Y"), Op.addJob (record (some "2") "C" "Z")],
        op.isSetJobs = false) ∧
      getJobs (run [Op.addJob (record (some "1") "A" "X"), Op.addJob (record none "A" "X"),
          Op.addJob (record (some "2") "B" "Y"), Op.addJob (record (some "2") "C" "Z")]
          (init "t" State.empty))
        = [record (some "1") "A" "X", record (some "2") "B" "Y"] ∧
      ¬ ((record (some "1") "A" "X").title = (record (some "2") "B" "Y").title ∧
        (record (some "1") "A" "X").company = (record (some "2") "B" "Y").company) ∧
      ¬ ∃ id : String, id ≠ "" ∧ (record (some "1") "A" "X").id = some id ∧
        (record (some "2") "B" "Y").id = some id :=
  ⟨by decide, by decide,
    C22_records_pairwise_distinct
      [Op.addJob (record (some "1") "A" "X"), Op.addJob (record none "A" "X"),
        Op.addJob (record (some "2") "B" "Y"), Op.addJob (record (some "2") "C" "Z")]
      (by decide) "t" State.empty rfl 0 1 (record (some "1") "A" "X")
      (record (some "2") "B" "Y") (by decide) (by decide) (by decide)⟩

end ResumeAnalyzer
